import Mathlib

/-!
# SPZ6 — `Observer.cpp`

A shallow embedding of the observer demo:

* `WordCountSubscriber` (constructors, `Update`),
* `WordCountObserver` (`Subscribe`, `Unsubscribe`, `Notify`),
* the driver `main`: the scripted sequence, `getline`, the word-start scan loop
  and the final printing.

Modelling conventions.

* A handle is a non-null `std::shared_ptr<Subscriber>`; it is represented by the
  identity (address) of the object it points at, and `==` on handles is equality
  of addresses.  Shared ownership keeps every subscribed object alive, so the
  object store `World.heap` is total on handles.
* `int` is 32-bit two's complement; the result of `++word_count` is taken
  modulo `2^32` (`wrapInt`).
* `std::function<void(const std::string&)>` is `Option (String → σ → σ)`: `none`
  is the empty function object, and a non-empty one acts on the state `σ` it
  captured by reference (in `main`: `resultStorage`).  Callbacks return normally
  and do not touch the observer.
* `std::cout` is the list of chunks written with `<<`, oldest first.
* `World.calls` is a ghost log of the method calls `Notify` and `Update`
  (with the receiver of each `Update`), oldest first.
-/

namespace SPZ6

/-! ## Machine integers and strings -/

/-- Identity of a subscriber object (the address held by a non-null shared pointer). -/
abbrev Handle := Nat

/-- Largest value of `int`. -/
def INT_MAX : Int := 2147483647

/-- Smallest value of `int`. -/
def INT_MIN : Int := -2147483648

/-- Value of an `int` computation whose mathematical result is `x`
(32-bit two's complement).  Signed overflow is undefined in C++; the model takes
the wrapped value that the usual targets produce. -/
def wrapInt (x : Int) : Int := (x + 2147483648) % 4294967296 - 2147483648

/-- Decimal rendering of an `int`, as `std::to_string(int)`. -/
def to_string (i : Int) : String := toString i

/-! ## Subscriber -/

/-- Ghost record of a method call. -/
inductive Call where
  | Notify : Call
  | Update : Handle → Call
  deriving DecidableEq, Repr

/-- Fields of `class WordCountSubscriber`. -/
structure WordCountSubscriber (σ : Type) where
  callback : Option (String → σ → σ)
  word_count : Int
  name : String

/-- Constructor `WordCountSubscriber(const std::string& n)`: the callback is
default-constructed (empty). -/
def WordCountSubscriber.ctor {σ : Type} (n : String) : WordCountSubscriber σ :=
  { callback := none, word_count := 0, name := n }

/-- Constructor `WordCountSubscriber(const std::string& n, std::function<...> onUpdate)`. -/
def WordCountSubscriber.ctorCallback {σ : Type} (n : String)
    (onUpdate : Option (String → σ → σ)) : WordCountSubscriber σ :=
  { callback := onUpdate, word_count := 0, name := n }

/-- Everything outside the observer: the subscriber objects, standard output,
the state captured by callbacks, and the ghost call log. -/
structure World (σ : Type) where
  heap : Handle → WordCountSubscriber σ
  cout : List String
  store : σ
  calls : List Call

/-- The string built in the first statement of `Update`, for a counter that
already holds the incremented value. -/
def formatMessage (name : String) (word_count : Int) : String :=
  name ++ ": get update [word_count = " ++ to_string word_count ++ "]\n"

/-- Body of `WordCountSubscriber::Update` on the object `self`, acting on
standard output `cout` and on the callback state `store`.  Returns the object
after the call, standard output and the callback state. -/
def WordCountSubscriber.Update {σ : Type} (self : WordCountSubscriber σ)
    (cout : List String) (store : σ) : WordCountSubscriber σ × List String × σ :=
  let word_count := wrapInt (self.word_count + 1)
  let message := formatMessage self.name word_count
  let self1 := { self with word_count := word_count }
  match self.callback with
  | some cb => (self1, cout, cb message store)
  | none => (self1, cout ++ [message], store)

/-- The call `sub->Update()` through the handle `sub`. -/
def callUpdate {σ : Type} (w : World σ) (sub : Handle) : World σ :=
  let r := (w.heap sub).Update w.cout w.store
  { heap := fun p => if p = sub then r.1 else w.heap p
    cout := r.2.1
    store := r.2.2
    calls := w.calls ++ [Call.Update sub] }

/-- The state after `n` successive `Update` calls on one object: the object,
standard output and the callback state. -/
def updateTimes {σ : Type} :
    Nat → WordCountSubscriber σ × List String × σ → WordCountSubscriber σ × List String × σ
  | 0, s => s
  | n + 1, s => (updateTimes n s).1.Update (updateTimes n s).2.1 (updateTimes n s).2.2

/-! ## Observer -/

/-- Fields of `class Observer` / `WordCountObserver`: the vector of subscribers. -/
structure WordCountObserver where
  subscribers : List Handle
  deriving DecidableEq, Repr

/-- `std::find(begin, end, value)` as the offset of the returned iterator from
`begin`; the offset of `end` (the length) when no element equals `value`. -/
def find : List Handle → Handle → Nat
  | [], _ => 0
  | x :: xs, value => if x = value then 0 else find xs value + 1

/-- `std::remove(begin, end, value)`: the range `[begin, result)` it leaves,
that is the elements different from `value`, shifted to the front in their
original order.  What it leaves in `[result, end)` is unspecified and is erased
by the caller at once. -/
def remove : List Handle → Handle → List Handle
  | [], _ => []
  | x :: xs, value => if x = value then remove xs value else x :: remove xs value

/-- `WordCountObserver::Subscribe`. -/
def WordCountObserver.Subscribe {σ : Type} (self : WordCountObserver) (sub : Handle)
    (w : World σ) : WordCountObserver × World σ :=
  let it := find self.subscribers sub
  if it ≠ self.subscribers.length then
    (self, { w with cout := w.cout ++ ["You're subscriber already!\n"] })
  else
    ({ subscribers := self.subscribers ++ [sub] }, w)

/-- `WordCountObserver::Unsubscribe`: `erase(remove(begin, end, sub), end)`. -/
def WordCountObserver.Unsubscribe {σ : Type} (self : WordCountObserver) (sub : Handle)
    (w : World σ) : WordCountObserver × World σ :=
  ({ subscribers := remove self.subscribers sub }, w)

/-- `WordCountObserver::Notify`: the range-for over `subscribers`. -/
def WordCountObserver.Notify {σ : Type} (self : WordCountObserver)
    (w : World σ) : WordCountObserver × World σ :=
  (self, self.subscribers.foldl callUpdate { w with calls := w.calls ++ [Call.Notify] })

/-- A freshly constructed `WordCountObserver`: the vector is empty. -/
def WordCountObserver.empty : WordCountObserver := { subscribers := [] }

/-- A call of one of the three public methods of the observer. -/
inductive Op where
  | Subscribe : Handle → Op
  | Unsubscribe : Handle → Op
  | Notify : Op
  deriving DecidableEq, Repr

/-- Perform one call on the observer. -/
def step {σ : Type} (s : WordCountObserver × World σ) : Op → WordCountObserver × World σ
  | Op.Subscribe h => s.1.Subscribe h s.2
  | Op.Unsubscribe h => s.1.Unsubscribe h s.2
  | Op.Notify => s.1.Notify s.2

/-- Perform a sequence of calls, first to last. -/
def run {σ : Type} (ops : List Op) (s : WordCountObserver × World σ) :
    WordCountObserver × World σ :=
  ops.foldl step s

/-! ## Driver: the word-start scan -/

/-- `isalpha` in the default "C" locale, on an `unsigned char` value. -/
def isalpha (ch : Nat) : Bool := (65 ≤ ch && ch ≤ 90) || (97 ≤ ch && ch ≤ 122)

/-- `strlen(buffer)`: the number of characters before the first NUL. -/
def strlen (buffer : List Nat) : Nat := (buffer.takeWhile (fun ch => ch != 0)).length

/-- The loop `for (i = 0; i < strlen(buffer); ++i)` of `main`, over the
characters still to visit, with the current value of `space`.  Returns the final
`space` and state. -/
def scanLoop {σ : Type} : List Nat → Int → WordCountObserver × World σ →
    Int × (WordCountObserver × World σ)
  | [], space, s => (space, s)
  | ch :: rest, space, s =>
    if space = 0 ∧ isalpha ch = true then
      scanLoop rest 1 (s.1.Notify s.2)
    else if isalpha ch = false then
      scanLoop rest 0 s
    else
      scanLoop rest space s

/-- The scan of `main` on the contents of `buffer`: `space` starts at 0 and
the characters visited are those before the terminating NUL. -/
def scanBuffer {σ : Type} (buffer : List Nat) (s : WordCountObserver × World σ) :
    WordCountObserver × World σ :=
  (scanLoop (buffer.take (strlen buffer)) 0 s).2

/-! ## Driver: `main` -/

/-- `std::cin.getline(buffer, count)`: the characters stored in `buffer` before
the terminating NUL, that is the input up to the first newline, at most
`count - 1` of them. -/
def getline (stdin : List Nat) (count : Nat) : List Nat :=
  (stdin.takeWhile (fun ch => ch != 10)).take (count - 1)

/-- The lambda passed to the subscriber `sub` in `main`: it pushes the message
onto `resultStorage`. -/
def pushResult (msg : String) (resultStorage : List String) : List String :=
  resultStorage ++ [msg]

/-- The objects `main` creates with `std::make_shared`, at the addresses
`sub1`, `sub2` and `sub`. -/
def mainHeap (sub1 sub2 sub : Handle) : Handle → WordCountSubscriber (List String) :=
  fun p =>
    if p = sub then WordCountSubscriber.ctorCallback "sub" (some pushResult)
    else if p = sub2 then WordCountSubscriber.ctor "sub2"
    else if p = sub1 then WordCountSubscriber.ctor "sub1"
    else WordCountSubscriber.ctor ""

/-- Write one chunk to standard output. -/
def print {σ : Type} (s : WordCountObserver × World σ) (chunk : String) :
    WordCountObserver × World σ :=
  (s.1, { s.2 with cout := s.2.cout ++ [chunk] })

/-- The program `main` on the standard input `stdin`, with the three
subscribers allocated at `sub1`, `sub2` and `sub`.  The callback state is
`resultStorage`.  Returns the observer and the world at `return 0`. -/
def main (sub1 sub2 sub : Handle) (stdin : List Nat) : WordCountObserver × World (List String) :=
  let s0 : WordCountObserver × World (List String) :=
    (WordCountObserver.empty,
      { heap := mainHeap sub1 sub2 sub, cout := [], store := [], calls := [] })
  let s1 := s0.1.Subscribe sub1 s0.2
  let s2 := s1.1.Subscribe sub2 s1.2
  let s3 := s2.1.Subscribe sub1 s2.2
  let s4 := s3.1.Notify s3.2
  let s5 := s4.1.Unsubscribe sub1 s4.2
  let s6 := s5.1.Notify s5.2
  let s7 := s6.1.Unsubscribe sub2 s6.2
  let s8 := s7.1.Subscribe sub s7.2
  let s9 := print (print s8 "\n") "Enter string: "
  let buffer := getline stdin 100
  let s10 := print s9 "Processing...\n"
  let s11 := scanBuffer buffer s10
  let s12 := s11.1.Unsubscribe sub s11.2
  let s13 := print (print s12 "\n") "All output:\n"
  s13.2.store.foldl print s13

/-- The state of `main` when it reaches `std::cin.getline`: the scripted
sequence has run, `sub` has been subscribed and the prompt has been printed. -/
def mainBeforeRead (sub1 sub2 sub : Handle) : WordCountObserver × World (List String) :=
  let s0 : WordCountObserver × World (List String) :=
    (WordCountObserver.empty,
      { heap := mainHeap sub1 sub2 sub, cout := [], store := [], calls := [] })
  let s1 := s0.1.Subscribe sub1 s0.2
  let s2 := s1.1.Subscribe sub2 s1.2
  let s3 := s2.1.Subscribe sub1 s2.2
  let s4 := s3.1.Notify s3.2
  let s5 := s4.1.Unsubscribe sub1 s4.2
  let s6 := s5.1.Notify s5.2
  let s7 := s6.1.Unsubscribe sub2 s6.2
  let s8 := s7.1.Subscribe sub s7.2
  print (print s8 "\n") "Enter string: "

/-- The rest of `main`, from the call of `std::cin.getline` to `return 0`,
started in the state `s9`. -/
def mainFromRead (sub : Handle) (stdin : List Nat) (s9 : WordCountObserver × World (List String)) :
    WordCountObserver × World (List String) :=
  let buffer := getline stdin 100
  let s10 := print s9 "Processing...\n"
  let s11 := scanBuffer buffer s10
  let s12 := s11.1.Unsubscribe sub s11.2
  let s13 := print (print s12 "\n") "All output:\n"
  s13.2.store.foldl print s13

/-- Everything `main` writes to standard output from the call of `getline` on,
as one string. -/
def outputAfterRead (sub1 sub2 sub : Handle) (stdin : List Nat) : String :=
  String.join
    ((main sub1 sub2 sub stdin).2.cout.drop (mainBeforeRead sub1 sub2 sub).2.cout.length)

/-! ## A concrete world for examples -/

/-- A world with no callback state: every handle points at a subscriber built
by the one-argument constructor, nothing has been written and nothing called. -/
def plainWorld : World Unit :=
  { heap := fun _ => WordCountSubscriber.ctor "sub", cout := [], store := (), calls := [] }

/-! ## Specification-side notions

These follow the wording of the specification, not the code. -/

/-- Call number `i` of `ops` (counted from 0) is a `Subscribe(h)` that no later
`Unsubscribe(h)` follows. -/
def standing (ops : List Op) (h : Handle) (i : Nat) : Prop :=
  ops[i]? = some (Op.Subscribe h) ∧ Op.Unsubscribe h ∉ ops.drop (i + 1)

instance (ops : List Op) (h : Handle) (i : Nat) : Decidable (standing ops h i) :=
  inferInstanceAs (Decidable (_ ∧ _))

/-- After the calls `ops`, the handle `h` is currently subscribed: it was
subscribed and has not been unsubscribed since. -/
def currentlySubscribed (ops : List Op) (h : Handle) : Prop :=
  ∃ i, i < ops.length ∧ standing ops h i

instance (ops : List Op) (h : Handle) : Decidable (currentlySubscribed ops h) :=
  inferInstanceAs (Decidable (∃ i, i < ops.length ∧ standing ops h i))

/-- The current subscription of `h` began with call number `i`: the first
`Subscribe(h)` that no `Unsubscribe(h)` follows. -/
def subscribedAt (ops : List Op) (h : Handle) (i : Nat) : Prop :=
  standing ops h i ∧ ∀ k, k < i → ¬ standing ops h k

instance (ops : List Op) (h : Handle) (i : Nat) : Decidable (subscribedAt ops h i) :=
  inferInstanceAs (Decidable (_ ∧ _))

/-- Position `i` of `line` is a word start: the character there is alphabetic
and it is the first of the line or follows a non-alphabetic character. -/
def isWordStart (line : List Nat) (i : Nat) : Bool :=
  isalpha (line.getD i 0) && (i == 0 || !isalpha (line.getD (i - 1) 0))

/-- The number of word starts of `line`. -/
def wordStarts (line : List Nat) : Nat :=
  ((List.range line.length).filter (isWordStart line)).length

/-- The input line: standard input up to the first newline. -/
def inputLine (stdin : List Nat) : List Nat := stdin.takeWhile (fun ch => ch != 10)

/-- The text held in `buffer` once `getline` has returned: the characters
before the terminating NUL. -/
def bufferText (stdin : List Nat) : List Nat :=
  (getline stdin 100).take (strlen (getline stdin 100))

/-- The messages `"sub: get update [word_count = i]\n"` for `i` from 1 to `k`. -/
def updateMessages (k : Nat) : List String :=
  (List.range k).map (fun i => "sub: get update [word_count = " ++ toString (i + 1) ++ "]\n")

/-- The layout the specification gives for the output that follows the reading
of the line: `"Processing...\n"`, the update lines, `"\nAll output:\n"`, the
buffered messages. -/
def specOutputAfterRead (updateLines buffered : List String) : String :=
  "Processing...\n" ++ String.join updateLines ++ "\nAll output:\n" ++ String.join buffered

/-- The receivers of the `Update` calls in a call log, oldest first. -/
def updatesOf : List Call → List Handle
  | [] => []
  | Call.Update h :: cs => h :: updatesOf cs
  | Call.Notify :: cs => updatesOf cs

/-- The number of `Notify` calls in a call log. -/
def notifyCount : List Call → Nat
  | [] => 0
  | Call.Notify :: cs => notifyCount cs + 1
  | Call.Update _ :: cs => notifyCount cs

/-! ## Lemmas on `find` and `remove` -/

theorem find_le_length (xs : List Handle) (v : Handle) : find xs v ≤ xs.length := by
  induction xs with
  | nil => simp [find]
  | cons x xs ih =>
    simp only [find]
    split
    · exact Nat.zero_le _
    · simpa using ih

theorem find_eq_length_iff (xs : List Handle) (v : Handle) :
    find xs v = xs.length ↔ v ∉ xs := by
  induction xs with
  | nil => simp [find]
  | cons x xs ih =>
    simp only [find]
    by_cases hx : x = v
    · subst hx
      simp
    · have hv : ¬ v = x := fun e => hx e.symm
      simp [hx, hv, ih]

theorem remove_eq_filter (xs : List Handle) (v : Handle) :
    remove xs v = xs.filter (fun x => decide (x ≠ v)) := by
  induction xs with
  | nil => rfl
  | cons x xs ih =>
    simp only [remove]
    by_cases hx : x = v
    · simp [hx, ih]
    · simp [hx, ih]

theorem Subscribe_of_not_mem {σ : Type} (self : WordCountObserver) (h : Handle) (w : World σ)
    (hn : h ∉ self.subscribers) :
    self.Subscribe h w = ({ subscribers := self.subscribers ++ [h] }, w) := by
  have hf := (find_eq_length_iff self.subscribers h).mpr hn
  simp [WordCountObserver.Subscribe, hf]

theorem Subscribe_of_mem {σ : Type} (self : WordCountObserver) (h : Handle) (w : World σ)
    (hm : h ∈ self.subscribers) :
    self.Subscribe h w =
      (self, { w with cout := w.cout ++ ["You're subscriber already!\n"] }) := by
  have hf : find self.subscribers h ≠ self.subscribers.length := fun e =>
    (find_eq_length_iff self.subscribers h).mp e hm
  simp [WordCountObserver.Subscribe, hf]

/-! ## Subscribe and Unsubscribe on an arbitrary collection -/

/-- C2. Subscribing a handle that is not in the collection appends it at the
tail: the new collection is the old one followed by `h`, every old position
keeps its handle, the size grows by one, and nothing else changes. -/
theorem Subscribe_appends {σ : Type} (subs : List Handle) (h : Handle) (w : World σ)
    (hn : h ∉ subs) :
    let r := WordCountObserver.Subscribe { subscribers := subs } h w
    r.1.subscribers = subs ++ [h] ∧
    r.1.subscribers.length = subs.length + 1 ∧
    (∀ i, i < subs.length → r.1.subscribers[i]? = subs[i]?) ∧
    r.1.subscribers[subs.length]? = some h ∧
    List.Sublist subs r.1.subscribers ∧
    r.2 = w := by
  intro r
  have hr : r = ({ subscribers := subs ++ [h] }, w) := Subscribe_of_not_mem _ h w hn
  rw [hr]
  refine ⟨rfl, by simp, ?_, by simp, by simp, rfl⟩
  intro i hi
  exact List.getElem?_append_left hi

theorem Subscribe_appends_witness :
    (7 : Handle) ∉ [3, 5] ∧
    (WordCountObserver.Subscribe { subscribers := [3, 5] } 7
      ({ heap := fun _ => WordCountSubscriber.ctor "s", cout := [], store := (), calls := [] } :
        World Unit)).1.subscribers = [3, 5] ++ [7] :=
  ⟨by decide, (Subscribe_appends [3, 5] 7 _ (by decide)).1⟩

/-- C4. Unsubscribing removes every occurrence of `h`: the new collection is
the old one with the elements equal to `h` deleted, `h` is no longer a member,
and every other handle stays, as often as before and in the original order. -/
theorem Unsubscribe_removes_all {σ : Type} (subs : List Handle) (h : Handle) (w : World σ) :
    let r := WordCountObserver.Unsubscribe { subscribers := subs } h w
    r.1.subscribers = subs.filter (fun x => decide (x ≠ h)) ∧
    h ∉ r.1.subscribers ∧
    (∀ x, x ≠ h → (x ∈ r.1.subscribers ↔ x ∈ subs)) ∧
    (∀ x, x ≠ h → r.1.subscribers.count x = subs.count x) ∧
    List.Sublist r.1.subscribers subs := by
  intro r
  have hr : r.1.subscribers = subs.filter (fun x => decide (x ≠ h)) :=
    remove_eq_filter subs h
  rw [hr]
  refine ⟨rfl, by simp, ?_, ?_, List.filter_sublist subs⟩
  · intro x hx
    simp [List.mem_filter, hx]
  · intro x hx
    exact List.count_filter (by simpa using hx)

/-- C5. Unsubscribing a handle that is not a member returns the identical
collection and leaves standard output, the callback state and every subscriber
as they were. -/
theorem Unsubscribe_absent {σ : Type} (subs : List Handle) (h : Handle) (w : World σ)
    (hn : h ∉ subs) :
    WordCountObserver.Unsubscribe { subscribers := subs } h w = ({ subscribers := subs }, w) := by
  have hf : subs.filter (fun x => decide (x ≠ h)) = subs := by
    rw [List.filter_eq_self]
    intro a ha
    have : a ≠ h := fun e => hn (e ▸ ha)
    simpa using this
  unfold WordCountObserver.Unsubscribe
  rw [remove_eq_filter, hf]

theorem Unsubscribe_absent_witness :
    (7 : Handle) ∉ [3, 5, 3] ∧
    (WordCountObserver.Unsubscribe { subscribers := [3, 5, 3] } 7
      ({ heap := fun _ => WordCountSubscriber.ctor "s", cout := ["x"], store := (), calls := [] } :
        World Unit)).1 = { subscribers := [3, 5, 3] } :=
  ⟨by decide, congrArg Prod.fst (Unsubscribe_absent [3, 5, 3] 7 _ (by decide))⟩

/-! ## The call history and the collection it produces -/

theorem run_snoc {σ : Type} (ops : List Op) (op : Op) (s : WordCountObserver × World σ) :
    run (ops ++ [op]) s = step (run ops s) op := by
  simp [run, List.foldl_append]

theorem standing_lt {ops : List Op} {h : Handle} {i : Nat} (hs : standing ops h i) :
    i < ops.length := by
  by_contra hlt
  have : ops[i]? = none := List.getElem?_eq_none (Nat.le_of_not_lt hlt)
  rw [hs.1] at this
  exact Option.noConfusion this

theorem standing_snoc (ops : List Op) (op : Op) (h : Handle) (i : Nat) :
    standing (ops ++ [op]) h i ↔
      (standing ops h i ∧ op ≠ Op.Unsubscribe h) ∨ (i = ops.length ∧ op = Op.Subscribe h) := by
  rcases Nat.lt_trichotomy i ops.length with hlt | heq | hgt
  · have h1 : (ops ++ [op])[i]? = ops[i]? := List.getElem?_append_left hlt
    have h2 : (ops ++ [op]).drop (i + 1) = ops.drop (i + 1) ++ [op] :=
      List.drop_append_of_le_length hlt
    have hne : i ≠ ops.length := Nat.ne_of_lt hlt
    unfold standing
    rw [h1, h2]
    constructor
    · rintro ⟨ha, hb⟩
      refine Or.inl ⟨⟨ha, fun hm => hb (List.mem_append_left _ hm)⟩, fun e => hb ?_⟩
      rw [e]
      simp
    · rintro (⟨⟨ha, hb⟩, hc⟩ | ⟨hd, _⟩)
      · refine ⟨ha, fun hm => ?_⟩
        rcases List.mem_append.mp hm with hm | hm
        · exact hb hm
        · exact hc (List.mem_singleton.mp hm).symm
      · exact absurd hd hne
  · subst heq
    have h1 : (ops ++ [op])[ops.length]? = some op := by simp
    have h2 : (ops ++ [op]).drop (ops.length + 1) = [] := by
      apply List.drop_eq_nil_of_le
      simp
    have h3 : ¬ standing ops h ops.length := fun hs => Nat.lt_irrefl _ (standing_lt hs)
    unfold standing at h3 ⊢
    rw [h1, h2]
    constructor
    · rintro ⟨ha, _⟩
      exact Or.inr ⟨rfl, Option.some.inj ha⟩
    · rintro (⟨ha, _⟩ | ⟨_, hb⟩)
      · exact absurd ha h3
      · exact ⟨by rw [hb], by simp⟩
  · have h3 : ¬ standing ops h i := fun hs => Nat.lt_asymm hgt (standing_lt hs)
    have h4 : ¬ standing (ops ++ [op]) h i := fun hs => by
      have := standing_lt hs
      simp at this
      omega
    have hne : i ≠ ops.length := Nat.ne_of_gt hgt
    constructor
    · intro hs
      exact absurd hs h4
    · rintro (⟨ha, _⟩ | ⟨hd, _⟩)
      · exact absurd ha h3
      · exact absurd hd hne

theorem currentlySubscribed_iff (ops : List Op) (h : Handle) :
    currentlySubscribed ops h ↔ ∃ i, standing ops h i := by
  constructor
  · rintro ⟨i, _, hs⟩
    exact ⟨i, hs⟩
  · rintro ⟨i, hs⟩
    exact ⟨i, standing_lt hs, hs⟩

theorem exists_subscribedAt {ops : List Op} {h : Handle} (hc : currentlySubscribed ops h) :
    ∃ i, subscribedAt ops h i := by
  classical
  have hex : ∃ i, standing ops h i := (currentlySubscribed_iff ops h).mp hc
  exact ⟨Nat.find hex, Nat.find_spec hex, fun k hk => Nat.find_min hex hk⟩

theorem subscribedAt_currentlySubscribed {ops : List Op} {h : Handle} {i : Nat}
    (hs : subscribedAt ops h i) : currentlySubscribed ops h :=
  (currentlySubscribed_iff ops h).mpr ⟨i, hs.1⟩

theorem subscribedAt_snoc_keep {ops : List Op} {op : Op} {h : Handle} {i : Nat}
    (hs : subscribedAt ops h i) (hop : op ≠ Op.Unsubscribe h) :
    subscribedAt (ops ++ [op]) h i := by
  refine ⟨(standing_snoc ops op h i).mpr (Or.inl ⟨hs.1, hop⟩), fun k hk hst => ?_⟩
  rcases (standing_snoc ops op h k).mp hst with ⟨ha, _⟩ | ⟨hb, _⟩
  · exact hs.2 k hk ha
  · have := standing_lt hs.1
    omega

theorem subscribedAt_snoc_new {ops : List Op} {h : Handle}
    (hn : ¬ currentlySubscribed ops h) :
    subscribedAt (ops ++ [Op.Subscribe h]) h ops.length := by
  refine ⟨(standing_snoc ops _ h _).mpr (Or.inr ⟨rfl, rfl⟩), fun k hk hst => ?_⟩
  rcases (standing_snoc ops _ h k).mp hst with ⟨ha, _⟩ | ⟨hb, _⟩
  · exact hn ((currentlySubscribed_iff ops h).mpr ⟨k, ha⟩)
  · omega

theorem currentlySubscribed_snoc (ops : List Op) (op : Op) (h : Handle) :
    currentlySubscribed (ops ++ [op]) h ↔
      (currentlySubscribed ops h ∧ op ≠ Op.Unsubscribe h) ∨ op = Op.Subscribe h := by
  rw [currentlySubscribed_iff, currentlySubscribed_iff]
  constructor
  · rintro ⟨i, hs⟩
    rcases (standing_snoc ops op h i).mp hs with ⟨ha, hb⟩ | ⟨_, hb⟩
    · exact Or.inl ⟨⟨i, ha⟩, hb⟩
    · exact Or.inr hb
  · rintro (⟨⟨i, ha⟩, hb⟩ | hb)
    · exact ⟨i, (standing_snoc ops op h i).mpr (Or.inl ⟨ha, hb⟩)⟩
    · exact ⟨ops.length, (standing_snoc ops op h _).mpr (Or.inr ⟨rfl, hb⟩)⟩

theorem Notify_fst {σ : Type} (self : WordCountObserver) (w : World σ) :
    (self.Notify w).1 = self := rfl

/-- The collection held after any sequence of calls on a fresh observer has no
duplicates, holds exactly the currently subscribed handles, and lists them in
the order in which their current subscriptions began. -/
theorem run_subscribers {σ : Type} (w : World σ) (ops : List Op) :
    (run ops (WordCountObserver.empty, w)).1.subscribers.Nodup ∧
    (∀ h, h ∈ (run ops (WordCountObserver.empty, w)).1.subscribers ↔
      currentlySubscribed ops h) ∧
    (run ops (WordCountObserver.empty, w)).1.subscribers.Pairwise
      (fun a b => ∃ i j, subscribedAt ops a i ∧ subscribedAt ops b j ∧ i < j) := by
  induction ops using List.reverseRecOn with
  | nil =>
    refine ⟨List.nodup_nil, fun h => ?_, List.Pairwise.nil⟩
    constructor
    · intro hm
      exact absurd hm (List.not_mem_nil h)
    · rintro ⟨i, hi, _⟩
      exact absurd hi (Nat.not_lt_zero i)
  | append_singleton ops op ih =>
    obtain ⟨hnd, hmem, hpw⟩ := ih
    rw [run_snoc]
    generalize run ops (WordCountObserver.empty, w) = s at hnd hmem hpw
    have keep : ∀ a b, op ≠ Op.Unsubscribe a → op ≠ Op.Unsubscribe b →
        (∃ i j, subscribedAt ops a i ∧ subscribedAt ops b j ∧ i < j) →
        ∃ i j, subscribedAt (ops ++ [op]) a i ∧ subscribedAt (ops ++ [op]) b j ∧ i < j := by
      rintro a b ha hb ⟨i, j, hi, hj, hij⟩
      exact ⟨i, j, subscribedAt_snoc_keep hi ha, subscribedAt_snoc_keep hj hb, hij⟩
    cases op with
    | Subscribe x =>
      by_cases hx : x ∈ s.1.subscribers
      · have hs : (step s (Op.Subscribe x)).1 = s.1 := by
          show (s.1.Subscribe x s.2).1 = s.1
          rw [Subscribe_of_mem _ _ _ hx]
        rw [hs]
        refine ⟨hnd, fun h => ?_, hpw.imp (fun {a b} hab => keep a b (by simp) (by simp) hab)⟩
        rw [currentlySubscribed_snoc, hmem h]
        constructor
        · intro hc
          exact Or.inl ⟨hc, by simp⟩
        · rintro (⟨hc, _⟩ | he)
          · exact hc
          · have : x = h := by injection he
            rw [← this]
            exact (hmem x).mp hx
      · have hs : (step s (Op.Subscribe x)).1.subscribers = s.1.subscribers ++ [x] := by
          show (s.1.Subscribe x s.2).1.subscribers = _
          rw [Subscribe_of_not_mem _ _ _ hx]
        rw [hs]
        have hncs : ¬ currentlySubscribed ops x := fun hc => hx ((hmem x).mpr hc)
        refine ⟨?_, fun h => ?_, ?_⟩
        · rw [List.nodup_append]
          refine ⟨hnd, List.nodup_singleton x, ?_⟩
          intro a ha hb
          rw [List.mem_singleton] at hb
          exact hx (hb ▸ ha)
        · rw [currentlySubscribed_snoc, List.mem_append, List.mem_singleton, hmem h]
          constructor
          · rintro (hc | he)
            · exact Or.inl ⟨hc, by simp⟩
            · exact Or.inr (by rw [he])
          · rintro (⟨hc, _⟩ | he)
            · exact Or.inl hc
            · have : x = h := by injection he
              exact Or.inr this.symm
        · rw [List.pairwise_append]
          refine ⟨hpw.imp (fun {a b} hab => keep a b (by simp) (by simp) hab),
            List.pairwise_singleton _ _, ?_⟩
          intro a ha b hb
          rw [List.mem_singleton] at hb
          subst hb
          obtain ⟨i, hi⟩ := exists_subscribedAt ((hmem a).mp ha)
          exact ⟨i, ops.length, subscribedAt_snoc_keep hi (by simp),
            subscribedAt_snoc_new hncs, standing_lt hi.1⟩
    | Unsubscribe x =>
      have hs : (step s (Op.Unsubscribe x)).1.subscribers =
          s.1.subscribers.filter (fun y => decide (y ≠ x)) := by
        show (s.1.Unsubscribe x s.2).1.subscribers = _
        exact remove_eq_filter _ _
      rw [hs]
      have hne : ∀ a, a ∈ s.1.subscribers.filter (fun y => decide (y ≠ x)) →
          Op.Unsubscribe x ≠ Op.Unsubscribe a := by
        intro a ha he
        have h1 : a ≠ x := by simpa using (List.mem_filter.mp ha).2
        have h2 : x = a := by injection he
        exact h1 h2.symm
      refine ⟨hnd.filter _, fun h => ?_, ?_⟩
      · rw [currentlySubscribed_snoc, List.mem_filter, hmem h]
        constructor
        · rintro ⟨hc, hd⟩
          have h1 : h ≠ x := by simpa using hd
          refine Or.inl ⟨hc, fun he => h1 ?_⟩
          have : x = h := by injection he
          exact this.symm
        · rintro (⟨hc, hd⟩ | he)
          · refine ⟨hc, ?_⟩
            have : h ≠ x := fun e => hd (by rw [e])
            simpa using this
          · exact Op.noConfusion he
      · exact (hpw.filter _).imp_of_mem
          (fun {a b} ha hb hab => keep a b (hne a ha) (hne b hb) hab)
    | Notify =>
      have hs : (step s Op.Notify).1 = s.1 := rfl
      rw [hs]
      refine ⟨hnd, fun h => ?_, hpw.imp (fun {a b} hab => keep a b (by simp) (by simp) hab)⟩
      rw [currentlySubscribed_snoc, hmem h]
      constructor
      · intro hc
        exact Or.inl ⟨hc, by simp⟩
      · rintro (⟨hc, _⟩ | he)
        · exact hc
        · exact Op.noConfusion he

/-! ## Notify -/

theorem Update_fst {σ : Type} (self : WordCountSubscriber σ) (cout : List String) (store : σ) :
    (self.Update cout store).1 = { self with word_count := wrapInt (self.word_count + 1) } := by
  unfold WordCountSubscriber.Update
  cases self.callback <;> rfl

theorem foldl_callUpdate_calls {σ : Type} (subs : List Handle) (w : World σ) :
    (subs.foldl callUpdate w).calls = w.calls ++ subs.map Call.Update := by
  induction subs generalizing w with
  | nil => simp
  | cons x xs ih =>
    rw [List.foldl_cons, ih]
    simp [callUpdate]

theorem Notify_calls {σ : Type} (self : WordCountObserver) (w : World σ) :
    (self.Notify w).2.calls = w.calls ++ Call.Notify :: self.subscribers.map Call.Update := by
  unfold WordCountObserver.Notify
  rw [foldl_callUpdate_calls]
  simp

theorem callUpdate_word_count {σ : Type} (w : World σ) (x h : Handle) :
    ((callUpdate w x).heap h).word_count =
      if h = x then wrapInt ((w.heap h).word_count + 1) else (w.heap h).word_count := by
  unfold callUpdate
  by_cases hx : h = x
  · subst hx
    simp [Update_fst]
  · simp [hx]

theorem foldl_callUpdate_word_count {σ : Type} (subs : List Handle) (w : World σ) (h : Handle) :
    ((subs.foldl callUpdate w).heap h).word_count =
      (fun c => wrapInt (c + 1))^[subs.count h] (w.heap h).word_count := by
  induction subs generalizing w with
  | nil => simp
  | cons x xs ih =>
    rw [List.foldl_cons, ih, callUpdate_word_count]
    by_cases hx : h = x
    · subst hx
      simp
    · have hx2 : ¬ x = h := fun e => hx e.symm
      simp [hx, List.count_cons, hx2]

theorem Notify_word_count {σ : Type} (self : WordCountObserver) (w : World σ) (h : Handle) :
    (((self.Notify w).2).heap h).word_count =
      (fun c => wrapInt (c + 1))^[self.subscribers.count h] (w.heap h).word_count := by
  unfold WordCountObserver.Notify
  rw [foldl_callUpdate_word_count]

/-- C1. After any sequence of calls on a fresh observer, `Notify` calls `Update`
on the handles `us`, one after the other and nothing else: a currently
subscribed handle occurs exactly once in `us` (and its counter is incremented
once), any other handle does not occur (and its counter is untouched), and
handles occur in the order in which their current subscriptions began. -/
theorem Notify_after_calls {σ : Type} (w : World σ) (ops : List Op) :
    ∃ us : List Handle,
      ((run ops (WordCountObserver.empty, w)).1.Notify
          (run ops (WordCountObserver.empty, w)).2).2.calls =
        (run ops (WordCountObserver.empty, w)).2.calls ++ Call.Notify :: us.map Call.Update ∧
      (∀ h, currentlySubscribed ops h → us.count h = 1 ∧
        ((((run ops (WordCountObserver.empty, w)).1.Notify
          (run ops (WordCountObserver.empty, w)).2).2).heap h).word_count =
          wrapInt ((((run ops (WordCountObserver.empty, w)).2).heap h).word_count + 1)) ∧
      (∀ h, ¬ currentlySubscribed ops h → us.count h = 0 ∧
        ((((run ops (WordCountObserver.empty, w)).1.Notify
          (run ops (WordCountObserver.empty, w)).2).2).heap h).word_count =
          (((run ops (WordCountObserver.empty, w)).2).heap h).word_count) ∧
      us.Pairwise (fun a b => ∃ i j, subscribedAt ops a i ∧ subscribedAt ops b j ∧ i < j) := by
  obtain ⟨hnd, hmem, hpw⟩ := run_subscribers w ops
  refine ⟨(run ops (WordCountObserver.empty, w)).1.subscribers, Notify_calls _ _, ?_, ?_, hpw⟩
  · intro h hc
    have h1 := List.count_eq_one_of_mem hnd ((hmem h).mpr hc)
    refine ⟨h1, ?_⟩
    rw [Notify_word_count, h1]
    rfl
  · intro h hc
    have h0 := List.count_eq_zero_of_not_mem (fun hm => hc ((hmem h).mp hm))
    refine ⟨h0, ?_⟩
    rw [Notify_word_count, h0]
    rfl

theorem Notify_after_calls_witness :
    currentlySubscribed [Op.Subscribe 1, Op.Subscribe 2, Op.Unsubscribe 1, Op.Subscribe 3] 2 ∧
    ¬ currentlySubscribed [Op.Subscribe 1, Op.Subscribe 2, Op.Unsubscribe 1, Op.Subscribe 3] 1 ∧
    ∃ us : List Handle,
      ((run [Op.Subscribe 1, Op.Subscribe 2, Op.Unsubscribe 1, Op.Subscribe 3]
          (WordCountObserver.empty, plainWorld)).1.Notify
          (run [Op.Subscribe 1, Op.Subscribe 2, Op.Unsubscribe 1, Op.Subscribe 3]
            (WordCountObserver.empty, plainWorld)).2).2.calls =
        (run [Op.Subscribe 1, Op.Subscribe 2, Op.Unsubscribe 1, Op.Subscribe 3]
          (WordCountObserver.empty, plainWorld)).2.calls ++ Call.Notify :: us.map Call.Update ∧
      us.count 2 = 1 ∧ us.count 1 = 0 := by
  refine ⟨by decide, by decide, ?_⟩
  obtain ⟨us, h1, h2, h3, _⟩ := Notify_after_calls plainWorld
    [Op.Subscribe 1, Op.Subscribe 2, Op.Unsubscribe 1, Op.Subscribe 3]
  exact ⟨us, h1, (h2 2 (by decide)).1, (h3 1 (by decide)).1⟩

/-- C6. In every state reached from a fresh observer by any sequence of
`Subscribe`, `Unsubscribe` and `Notify` calls, no handle appears more than once
in the subscriber collection. -/
theorem no_duplicate_subscribers {σ : Type} (w : World σ) (ops : List Op) :
    (run ops (WordCountObserver.empty, w)).1.subscribers.Nodup ∧
    ∀ h, (run ops (WordCountObserver.empty, w)).1.subscribers.count h ≤ 1 := by
  have hnd := (run_subscribers w ops).1
  exact ⟨hnd, fun h => List.nodup_iff_count_le_one.mp hnd h⟩

/-! ## Subscribing twice -/

theorem Subscribe_idem {σ : Type} (self : WordCountObserver) (h : Handle) (w : World σ) :
    ((self.Subscribe h w).1.Subscribe h (self.Subscribe h w).2).1 = (self.Subscribe h w).1 ∧
    h ∈ (self.Subscribe h w).1.subscribers ∧
    (self.Subscribe h w).1.subscribers.count h = max 1 (self.subscribers.count h) := by
  by_cases hm : h ∈ self.subscribers
  · have h1 : (self.Subscribe h w).1 = self := by rw [Subscribe_of_mem _ _ _ hm]
    have hpos : 0 < self.subscribers.count h := List.count_pos_iff.mpr hm
    have hm2 : h ∈ (self.Subscribe h w).1.subscribers := by
      rw [h1]
      exact hm
    refine ⟨?_, hm2, ?_⟩
    · rw [Subscribe_of_mem _ _ _ hm2]
    · rw [h1]
      omega
  · have h1 : (self.Subscribe h w).1 = { subscribers := self.subscribers ++ [h] } := by
      rw [Subscribe_of_not_mem _ _ _ hm]
    have h0 : self.subscribers.count h = 0 := List.count_eq_zero_of_not_mem hm
    have hm2 : h ∈ (self.Subscribe h w).1.subscribers := by
      rw [h1]
      simp
    refine ⟨?_, hm2, ?_⟩
    · rw [Subscribe_of_mem _ _ _ hm2]
    · rw [h1]
      simp [h0]

/-- On a collection that holds `h` at most once, `Subscribe(h)` twice gives the
same collection as `Subscribe(h)` once, and the `Notify` that follows calls the
`Update` of `h` exactly once and increments its counter once. -/
theorem Subscribe_twice_of_count_le_one {σ : Type} (self : WordCountObserver) (h : Handle)
    (w : World σ) (hc : self.subscribers.count h ≤ 1) :
    ((self.Subscribe h w).1.Subscribe h (self.Subscribe h w).2).1 = (self.Subscribe h w).1 ∧
    ((self.Subscribe h w).1.Subscribe h (self.Subscribe h w).2).1.subscribers.length =
      (self.Subscribe h w).1.subscribers.length ∧
    ∃ us : List Handle,
      ((((self.Subscribe h w).1.Subscribe h (self.Subscribe h w).2).1).Notify
          (((self.Subscribe h w).1.Subscribe h (self.Subscribe h w).2).2)).2.calls =
        (((self.Subscribe h w).1.Subscribe h (self.Subscribe h w).2).2).calls ++
          Call.Notify :: us.map Call.Update ∧
      us.count h = 1 ∧
      ((((((self.Subscribe h w).1.Subscribe h (self.Subscribe h w).2).1).Notify
          (((self.Subscribe h w).1.Subscribe h (self.Subscribe h w).2).2)).2).heap h).word_count =
        wrapInt (((((self.Subscribe h w).1.Subscribe h (self.Subscribe h w).2).2).heap
          h).word_count + 1) := by
  obtain ⟨h1, _, h3⟩ := Subscribe_idem self h w
  have hcount : (self.Subscribe h w).1.subscribers.count h = 1 := by
    rw [h3]
    omega
  refine ⟨h1, by rw [h1], (self.Subscribe h w).1.subscribers, ?_, hcount, ?_⟩
  · rw [Notify_calls, h1]
  · rw [Notify_word_count, h1, hcount]
    rfl

/-- C3. In every state `s` of the observer, that is after any sequence of calls
on a fresh observer, and for every handle `h`: `Subscribe(h)` followed by
`Subscribe(h)` gives the same collection (hence the same size) as a single
`Subscribe(h)`, and a following `Notify` calls the `Update` of `h` exactly once
and increments its counter once.  The first part holds on any vector
whatsoever. -/
theorem Subscribe_twice {σ : Type} (w : World σ) (ops : List Op) (h : Handle) :
    let s := run ops (WordCountObserver.empty, w)
    ((s.1.Subscribe h s.2).1.Subscribe h (s.1.Subscribe h s.2).2).1 = (s.1.Subscribe h s.2).1 ∧
    ((s.1.Subscribe h s.2).1.Subscribe h (s.1.Subscribe h s.2).2).1.subscribers.length =
      (s.1.Subscribe h s.2).1.subscribers.length ∧
    (∃ us : List Handle,
      ((((s.1.Subscribe h s.2).1.Subscribe h (s.1.Subscribe h s.2).2).1).Notify
          (((s.1.Subscribe h s.2).1.Subscribe h (s.1.Subscribe h s.2).2).2)).2.calls =
        (((s.1.Subscribe h s.2).1.Subscribe h (s.1.Subscribe h s.2).2).2).calls ++
          Call.Notify :: us.map Call.Update ∧
      us.count h = 1 ∧
      ((((((s.1.Subscribe h s.2).1.Subscribe h (s.1.Subscribe h s.2).2).1).Notify
          (((s.1.Subscribe h s.2).1.Subscribe h (s.1.Subscribe h s.2).2).2)).2).heap h).word_count =
        wrapInt (((((s.1.Subscribe h s.2).1.Subscribe h (s.1.Subscribe h s.2).2).2).heap
          h).word_count + 1)) ∧
    ∀ (subs : List Handle) (v : World σ),
      ((WordCountObserver.Subscribe { subscribers := subs } h v).1.Subscribe h
          (WordCountObserver.Subscribe { subscribers := subs } h v).2).1 =
        (WordCountObserver.Subscribe { subscribers := subs } h v).1 := by
  intro s
  have hnd : s.1.subscribers.Nodup := (run_subscribers w ops).1
  have hc : s.1.subscribers.count h ≤ 1 := List.nodup_iff_count_le_one.mp hnd h
  obtain ⟨a, b, c⟩ := Subscribe_twice_of_count_le_one s.1 h s.2 hc
  exact ⟨a, b, c, fun subs v => (Subscribe_idem { subscribers := subs } h v).1⟩

theorem Subscribe_twice_witness :
    (((run [Op.Subscribe 3, Op.Subscribe 7] (WordCountObserver.empty, plainWorld)).1.Subscribe 7
        (run [Op.Subscribe 3, Op.Subscribe 7] (WordCountObserver.empty, plainWorld)).2).1.Subscribe
      7 ((run [Op.Subscribe 3, Op.Subscribe 7] (WordCountObserver.empty, plainWorld)).1.Subscribe 7
        (run [Op.Subscribe 3, Op.Subscribe 7] (WordCountObserver.empty, plainWorld)).2).2).1 =
      { subscribers := [3, 7] } :=
  ((Subscribe_twice plainWorld [Op.Subscribe 3, Op.Subscribe 7] 7).1).trans (by decide)

/-! ## The subscriber's counter and message -/

theorem wrapInt_of_range {x : Int} (h1 : -2147483648 ≤ x) (h2 : x ≤ 2147483647) :
    wrapInt x = x := by
  unfold wrapInt
  omega

theorem updateTimes_succ {σ : Type} (n : Nat) (s : WordCountSubscriber σ × List String × σ) :
    updateTimes (n + 1) s =
      (updateTimes n s).1.Update (updateTimes n s).2.1 (updateTimes n s).2.2 := rfl

theorem updateTimes_word_count_succ {σ : Type} (n : Nat)
    (s : WordCountSubscriber σ × List String × σ) :
    (updateTimes (n + 1) s).1.word_count = wrapInt ((updateTimes n s).1.word_count + 1) := by
  rw [updateTimes_succ, Update_fst]

theorem updateTimes_word_count {σ : Type} (n : Nat) (s : WordCountSubscriber σ × List String × σ)
    (h0 : s.1.word_count = 0) (hn : n ≤ 2147483647) :
    (updateTimes n s).1.word_count = (n : Int) := by
  induction n with
  | zero => simpa [updateTimes] using h0
  | succ k ih =>
    rw [updateTimes_word_count_succ, ih (by omega)]
    rw [wrapInt_of_range (by omega) (by omega)]
    push_cast
    rfl

/-- C7, as stated, fails at `n = 2^31`: after that many `Update` calls on a
freshly constructed subscriber the counter holds `-2147483648`, not `2147483648`. -/
theorem word_count_counterexample :
    (updateTimes 2147483648 ((WordCountSubscriber.ctor "sub" : WordCountSubscriber Unit), [], ())
      ).1.word_count = -2147483648 ∧
    ¬ (updateTimes 2147483648 ((WordCountSubscriber.ctor "sub" : WordCountSubscriber Unit), [], ())
      ).1.word_count = ((2147483648 : Nat) : Int) := by
  have h : (updateTimes 2147483648
      ((WordCountSubscriber.ctor "sub" : WordCountSubscriber Unit), [], ())).1.word_count
      = -2147483648 := by
    have e := updateTimes_word_count_succ 2147483647
      ((WordCountSubscriber.ctor "sub" : WordCountSubscriber Unit), [], ())
    rw [updateTimes_word_count 2147483647 _ rfl (Nat.le_refl _)] at e
    rw [e]
    decide
  refine ⟨h, ?_⟩
  rw [h]
  decide

/-- C7, amended. The counter starts at 0 for both constructors, and for every
`n ≤ INT_MAX`, after `n` `Update` calls it equals `n`; over that range it is
non-negative and each call increases it by exactly 1. -/
theorem word_count_after_updates {σ : Type} (name : String)
    (onUpdate : Option (String → σ → σ)) (cout : List String) (store : σ) (n : Nat)
    (hn : (n : Int) ≤ INT_MAX) :
    (WordCountSubscriber.ctor name : WordCountSubscriber σ).word_count = 0 ∧
    (WordCountSubscriber.ctorCallback name onUpdate).word_count = 0 ∧
    (updateTimes n ((WordCountSubscriber.ctor name : WordCountSubscriber σ), cout, store)
      ).1.word_count = (n : Int) ∧
    (updateTimes n (WordCountSubscriber.ctorCallback name onUpdate, cout, store)
      ).1.word_count = (n : Int) ∧
    (∀ k, k < n →
      (updateTimes (k + 1) ((WordCountSubscriber.ctor name : WordCountSubscriber σ), cout, store)
        ).1.word_count =
      (updateTimes k ((WordCountSubscriber.ctor name : WordCountSubscriber σ), cout, store)
        ).1.word_count + 1 ∧
      (updateTimes (k + 1) (WordCountSubscriber.ctorCallback name onUpdate, cout, store)
        ).1.word_count =
      (updateTimes k (WordCountSubscriber.ctorCallback name onUpdate, cout, store)
        ).1.word_count + 1) ∧
    (0 : Int) ≤ (updateTimes n ((WordCountSubscriber.ctor name : WordCountSubscriber σ),
      cout, store)).1.word_count ∧
    (0 : Int) ≤ (updateTimes n (WordCountSubscriber.ctorCallback name onUpdate,
      cout, store)).1.word_count := by
  have hn2 : n ≤ 2147483647 := by
    unfold INT_MAX at hn
    omega
  have a := updateTimes_word_count n
    ((WordCountSubscriber.ctor name : WordCountSubscriber σ), cout, store) rfl hn2
  have b := updateTimes_word_count n
    (WordCountSubscriber.ctorCallback name onUpdate, cout, store) rfl hn2
  refine ⟨rfl, rfl, a, b, fun k hk => ⟨?_, ?_⟩, ?_, ?_⟩
  · rw [updateTimes_word_count (k + 1) _ rfl (by omega), updateTimes_word_count k _ rfl (by omega)]
    push_cast
    rfl
  · rw [updateTimes_word_count (k + 1) _ rfl (by omega), updateTimes_word_count k _ rfl (by omega)]
    push_cast
    rfl
  · rw [a]
    exact Int.natCast_nonneg n
  · rw [b]
    exact Int.natCast_nonneg n

theorem word_count_after_updates_witness :
    ((3 : Nat) : Int) ≤ INT_MAX ∧
    (updateTimes 3 ((WordCountSubscriber.ctor "sub" : WordCountSubscriber Unit), [], ())
      ).1.word_count = ((3 : Nat) : Int) :=
  ⟨by decide, (word_count_after_updates "sub" none [] () 3 (by decide)).2.2.1⟩

/-- C8, as stated, fails at the counter value `INT_MAX`: the message carries
`-2147483648`, not the decimal of `2147483647 + 1`. -/
theorem Update_message_counterexample :
    (WordCountSubscriber.Update
      ({ callback := none, word_count := 2147483647, name := "sub" } : WordCountSubscriber Unit)
      [] ()).2.1 = ["sub: get update [word_count = -2147483648]\n"] ∧
    ¬ (WordCountSubscriber.Update
      ({ callback := none, word_count := 2147483647, name := "sub" } : WordCountSubscriber Unit)
      [] ()).2.1 =
      ["sub" ++ ": get update [word_count = " ++ to_string (2147483647 + 1) ++ "]" ++ "\n"] := by
  decide

/-- C8, amended. For every name and every counter value `c` of an `int` other
than `INT_MAX`, `Update` leaves the counter at `c + 1` and emits exactly one
message, `name ++ ": get update [word_count = " ++ decimal (c + 1) ++ "]"`
followed by a single newline: appended to standard output when the callback is
empty, handed to the callback otherwise. -/
theorem Update_message {σ : Type} (name : String) (c : Int)
    (callback : Option (String → σ → σ)) (cout : List String) (store : σ)
    (hlo : INT_MIN ≤ c) (hhi : c < INT_MAX) :
    WordCountSubscriber.Update { callback := callback, word_count := c, name := name } cout store =
      ({ callback := callback, word_count := c + 1, name := name },
        match callback with
        | some cb =>
          (cout,
            cb (name ++ ": get update [word_count = " ++ to_string (c + 1) ++ "]" ++ "\n") store)
        | none =>
          (cout ++ [name ++ ": get update [word_count = " ++ to_string (c + 1) ++ "]" ++ "\n"],
            store)) := by
  have hw : wrapInt (c + 1) = c + 1 := by
    unfold INT_MIN at hlo
    unfold INT_MAX at hhi
    exact wrapInt_of_range (by omega) (by omega)
  have hs : ∀ t : String, t ++ "]" ++ "\n" = t ++ "]\n" := fun t => by
    rw [String.append_assoc]
    rfl
  unfold WordCountSubscriber.Update formatMessage
  rw [hw, hs]
  cases callback <;> rfl

theorem Update_message_witness :
    INT_MIN ≤ 41 ∧ (41 : Int) < INT_MAX ∧
    (WordCountSubscriber.Update
      ({ callback := none, word_count := 41, name := "sub" } : WordCountSubscriber Unit)
      [] ()).2.1 = ["sub: get update [word_count = 42]\n"] :=
  ⟨by decide, by decide,
    (congrArg (fun r => r.2.1) (Update_message "sub" 41 none [] () (by decide) (by decide))).trans
      (by decide)⟩

/-! ## The callback sink -/

theorem updateTimes_sink {σ : Type} (name : String) (cb : String → σ → σ) (c : Int)
    (cout : List String) (store : σ) (n : Nat) :
    updateTimes n ({ callback := some cb, word_count := c, name := name }, cout, store) =
      ({ callback := some cb, word_count := (fun x => wrapInt (x + 1))^[n] c, name := name },
        cout,
        ((List.range n).map
          (fun k => formatMessage name ((fun x => wrapInt (x + 1))^[k + 1] c))).foldl
          (fun st m => cb m st) store) := by
  induction n with
  | zero => rfl
  | succ k ih =>
    rw [updateTimes_succ, ih]
    simp only [WordCountSubscriber.Update, List.range_succ, List.map_append, List.foldl_append,
      List.map_cons, List.map_nil, List.foldl_cons, List.foldl_nil,
      Function.iterate_succ_apply']

theorem updateTimes_cout {σ : Type} (name : String) (c : Int)
    (cout : List String) (store : σ) (n : Nat) :
    updateTimes n ({ callback := none, word_count := c, name := name }, cout, store) =
      ({ callback := none, word_count := (fun x => wrapInt (x + 1))^[n] c, name := name },
        cout ++ (List.range n).map
          (fun k => formatMessage name ((fun x => wrapInt (x + 1))^[k + 1] c)),
        store) := by
  induction n with
  | zero => simp [updateTimes]
  | succ k ih =>
    rw [updateTimes_succ, ih]
    simp only [WordCountSubscriber.Update, List.range_succ, List.map_append,
      List.map_cons, List.map_nil, List.append_assoc,
      Function.iterate_succ_apply']

theorem foldl_pushResult (msgs store : List String) :
    msgs.foldl (fun st m => pushResult m st) store = store ++ msgs := by
  induction msgs generalizing store with
  | nil => simp
  | cons m ms ih =>
    rw [List.foldl_cons, ih]
    simp [pushResult]

/-- C9. A subscriber that holds a non-empty callback hands each `Update`'s
message to the callback, once, and writes nothing to standard output; after `n`
`Update` calls on a subscriber constructed with the callback, the callback has
been applied to the `n` messages in turn and standard output is as before (with
the callback of `main`, `resultStorage` has grown by exactly these `n`
messages).  A subscriber constructed without a callback appends each message to
standard output instead and leaves the callback state alone. -/
theorem Update_uses_sink {σ : Type} (name : String) (cb : String → σ → σ) (c : Int)
    (cout : List String) (store : σ) (n : Nat) :
    WordCountSubscriber.Update { callback := some cb, word_count := c, name := name } cout store =
      ({ callback := some cb, word_count := wrapInt (c + 1), name := name },
        cout, cb (formatMessage name (wrapInt (c + 1))) store) ∧
    updateTimes n (WordCountSubscriber.ctorCallback name (some cb), cout, store) =
      ({ callback := some cb, word_count := (fun x => wrapInt (x + 1))^[n] 0, name := name },
        cout,
        ((List.range n).map
          (fun k => formatMessage name ((fun x => wrapInt (x + 1))^[k + 1] 0))).foldl
          (fun st m => cb m st) store) ∧
    ((List.range n).map
      (fun k => formatMessage name ((fun x => wrapInt (x + 1))^[k + 1] 0))).length = n ∧
    (∀ resultStorage : List String,
      (updateTimes n (WordCountSubscriber.ctorCallback name (some pushResult),
        cout, resultStorage)).2 =
        (cout, resultStorage ++ (List.range n).map
          (fun k => formatMessage name ((fun x => wrapInt (x + 1))^[k + 1] 0)))) ∧
    WordCountSubscriber.Update
        ({ callback := none, word_count := c, name := name } : WordCountSubscriber σ) cout store =
      ({ callback := none, word_count := wrapInt (c + 1), name := name },
        cout ++ [formatMessage name (wrapInt (c + 1))], store) ∧
    updateTimes n ((WordCountSubscriber.ctor name : WordCountSubscriber σ), cout, store) =
      ({ callback := none, word_count := (fun x => wrapInt (x + 1))^[n] 0, name := name },
        cout ++ (List.range n).map
          (fun k => formatMessage name ((fun x => wrapInt (x + 1))^[k + 1] 0)),
        store) := by
  refine ⟨rfl, updateTimes_sink name cb 0 cout store n, by simp, fun rs => ?_, rfl,
    updateTimes_cout name 0 cout store n⟩
  have e := updateTimes_sink name pushResult 0 cout rs n
  rw [foldl_pushResult] at e
  exact congrArg Prod.snd e

/-! ## The word-start scan -/

theorem scanLoop_append {σ : Type} (xs ys : List Nat) (space : Int)
    (s : WordCountObserver × World σ) :
    scanLoop (xs ++ ys) space s = scanLoop ys (scanLoop xs space s).1 (scanLoop xs space s).2 := by
  induction xs generalizing space s with
  | nil => rfl
  | cons x xs ih =>
    simp only [List.cons_append, scanLoop]
    split
    · exact ih _ _
    · split
      · exact ih _ _
      · exact ih _ _

theorem isWordStart_append_left (line : List Nat) (ch : Nat) (i : Nat) (hi : i < line.length) :
    isWordStart (line ++ [ch]) i = isWordStart line i := by
  have h1 : (line ++ [ch]).getD i 0 = line.getD i 0 := by
    simp [List.getD_eq_getElem?_getD, List.getElem?_append_left hi]
  have h2 : (line ++ [ch]).getD (i - 1) 0 = line.getD (i - 1) 0 := by
    have hi2 : i - 1 < line.length := by omega
    simp [List.getD_eq_getElem?_getD, List.getElem?_append_left hi2]
  unfold isWordStart
  rw [h1, h2]

theorem wordStarts_snoc (line : List Nat) (ch : Nat) :
    wordStarts (line ++ [ch]) =
      wordStarts line + (if isWordStart (line ++ [ch]) line.length = true then 1 else 0) := by
  unfold wordStarts
  have hlen : (line ++ [ch]).length = line.length + 1 := by simp
  rw [hlen, List.range_succ, List.filter_append, List.length_append]
  congr 1
  · congr 1
    apply List.filter_congr
    intro i hi
    exact isWordStart_append_left line ch i (List.mem_range.mp hi)
  · by_cases hw : isWordStart (line ++ [ch]) line.length = true
    · simp [hw]
    · simp [hw]

theorem isWordStart_last (line : List Nat) (ch : Nat) :
    isWordStart (line ++ [ch]) line.length =
      (isalpha ch && !(decide (line.length ≠ 0) && isalpha (line.getD (line.length - 1) 0))) := by
  have h1 : (line ++ [ch]).getD line.length 0 = ch := by
    simp [List.getD_eq_getElem?_getD]
  unfold isWordStart
  rw [h1]
  by_cases h0 : line.length = 0
  · simp [h0]
  · have hi2 : line.length - 1 < line.length := by omega
    have h2 : (line ++ [ch]).getD (line.length - 1) 0 = line.getD (line.length - 1) 0 := by
      simp [List.getD_eq_getElem?_getD, List.getElem?_append_left hi2]
    have h3 : (line.length == 0) = false := by simpa using h0
    have h4 : decide (line.length ≠ 0) = true := by simpa using h0
    rw [h2, h3, h4]
    simp

/-- Scanning `line` with `space` initially 0 performs `wordStarts line` calls of
`Notify` and nothing else, and leaves `space` at 1 exactly when the last
character visited is alphabetic. -/
theorem scanLoop_spec {σ : Type} (line : List Nat) (s : WordCountObserver × World σ) :
    scanLoop line 0 s =
      ((if (decide (line.length ≠ 0) && isalpha (line.getD (line.length - 1) 0)) = true
          then 1 else 0),
        (fun t : WordCountObserver × World σ => t.1.Notify t.2)^[wordStarts line] s) := by
  induction line using List.reverseRecOn with
  | nil => rfl
  | append_singleton line ch ih =>
    have hfin : (decide ((line ++ [ch]).length ≠ 0) &&
        isalpha ((line ++ [ch]).getD ((line ++ [ch]).length - 1) 0)) = isalpha ch := by
      have hlen : (line ++ [ch]).length - 1 = line.length := by simp
      have hne : decide ((line ++ [ch]).length ≠ 0) = true := by simp
      rw [hlen, hne]
      simp [List.getD_eq_getElem?_getD]
    rw [scanLoop_append, ih, wordStarts_snoc, isWordStart_last, hfin]
    simp only [scanLoop]
    generalize (decide (line.length ≠ 0) && isalpha (line.getD (line.length - 1) 0)) = p
    generalize isalpha ch = a
    cases p <;> cases a <;> simp [scanLoop, Function.iterate_succ_apply']

theorem notifyCount_append (xs ys : List Call) :
    notifyCount (xs ++ ys) = notifyCount xs + notifyCount ys := by
  induction xs with
  | nil => simp [notifyCount]
  | cons c cs ih =>
    cases c with
    | Notify =>
      show notifyCount (cs ++ ys) + 1 = notifyCount cs + 1 + notifyCount ys
      omega
    | Update h => exact ih

theorem notifyCount_map_Update (hs : List Handle) : notifyCount (hs.map Call.Update) = 0 := by
  induction hs with
  | nil => rfl
  | cons h hs ih => simpa [notifyCount] using ih

theorem notifyCount_Notify {σ : Type} (s : WordCountObserver × World σ) :
    notifyCount (s.1.Notify s.2).2.calls = notifyCount s.2.calls + 1 := by
  rw [Notify_calls, notifyCount_append]
  simp [notifyCount, notifyCount_map_Update]

theorem notifyCount_iterate {σ : Type} (k : Nat) (s : WordCountObserver × World σ) :
    notifyCount ((fun t : WordCountObserver × World σ => t.1.Notify t.2)^[k] s).2.calls =
      notifyCount s.2.calls + k := by
  induction k with
  | zero => rfl
  | succ k ih =>
    rw [Function.iterate_succ_apply', notifyCount_Notify, ih]
    omega

/-- C10. The scan of the line held in the buffer (the characters before the
terminating NUL) performs exactly one `Notify` call for each alphabetic
character that is first in the line or follows a non-alphabetic character, and
does nothing else; on "hi there you" that is 3 `Notify` calls. -/
theorem scan_notifies_per_word_start {σ : Type} (buffer : List Nat)
    (s : WordCountObserver × World σ) :
    scanBuffer buffer s =
      (fun t : WordCountObserver × World σ => t.1.Notify t.2)^[
        wordStarts (buffer.take (strlen buffer))] s ∧
    notifyCount (scanBuffer buffer s).2.calls =
      notifyCount s.2.calls + wordStarts (buffer.take (strlen buffer)) ∧
    notifyCount (scanBuffer ("hi there you".toList.map Char.toNat) s).2.calls =
      notifyCount s.2.calls + 3 := by
  have h1 : ∀ b : List Nat, scanBuffer b s =
      (fun t : WordCountObserver × World σ => t.1.Notify t.2)^[
        wordStarts (b.take (strlen b))] s := by
    intro b
    unfold scanBuffer
    rw [scanLoop_spec]
  have h3 : wordStarts (("hi there you".toList.map Char.toNat).take
      (strlen ("hi there you".toList.map Char.toNat))) = 3 := by decide
  refine ⟨h1 buffer, ?_, ?_⟩
  · rw [h1 buffer, notifyCount_iterate]
  · rw [h1, notifyCount_iterate, h3]

/-! ## The scripted scenario -/

theorem iterate_wrap_one (c : Int) : (fun x => wrapInt (x + 1))^[1] c = wrapInt (c + 1) := rfl

/-- C11. For two distinct subscribers whose counters are 0 and a fresh observer:
after `Subscribe(S1)`, `Subscribe(S2)`, `Notify` both counters are 1; after a
further `Unsubscribe(S1)`, `Notify` the counter of `S1` is still 1 and that of
`S2` is 2. -/
theorem scenario_counts {σ : Type} (w : World σ) (S1 S2 : Handle) (hne : S1 ≠ S2)
    (h1 : (w.heap S1).word_count = 0) (h2 : (w.heap S2).word_count = 0) :
    ((run [Op.Subscribe S1, Op.Subscribe S2, Op.Notify]
        (WordCountObserver.empty, w)).2.heap S1).word_count = 1 ∧
    ((run [Op.Subscribe S1, Op.Subscribe S2, Op.Notify]
        (WordCountObserver.empty, w)).2.heap S2).word_count = 1 ∧
    ((run [Op.Unsubscribe S1, Op.Notify]
        (run [Op.Subscribe S1, Op.Subscribe S2, Op.Notify]
          (WordCountObserver.empty, w))).2.heap S1).word_count = 1 ∧
    ((run [Op.Unsubscribe S1, Op.Notify]
        (run [Op.Subscribe S1, Op.Subscribe S2, Op.Notify]
          (WordCountObserver.empty, w))).2.heap S2).word_count = 2 := by
  have hne2 : S2 ≠ S1 := fun e => hne e.symm
  have e1 : WordCountObserver.Subscribe WordCountObserver.empty S1 w =
      ({ subscribers := [S1] }, w) :=
    Subscribe_of_not_mem WordCountObserver.empty S1 w (List.not_mem_nil S1)
  have e2 : WordCountObserver.Subscribe { subscribers := [S1] } S2 w =
      ({ subscribers := [S1, S2] }, w) :=
    Subscribe_of_not_mem { subscribers := [S1] } S2 w (by simpa using hne2)
  have ea : run [Op.Subscribe S1, Op.Subscribe S2, Op.Notify] (WordCountObserver.empty, w) =
      WordCountObserver.Notify { subscribers := [S1, S2] } w := by
    show WordCountObserver.Notify
      ((WordCountObserver.Subscribe (WordCountObserver.Subscribe WordCountObserver.empty S1 w).1
        S2 (WordCountObserver.Subscribe WordCountObserver.empty S1 w).2).1)
      ((WordCountObserver.Subscribe (WordCountObserver.Subscribe WordCountObserver.empty S1 w).1
        S2 (WordCountObserver.Subscribe WordCountObserver.empty S1 w).2).2) = _
    rw [e1, e2]
  have er : remove [S1, S2] S1 = [S2] := by
    simp [remove, hne2]
  have eb : run [Op.Unsubscribe S1, Op.Notify]
      (WordCountObserver.Notify { subscribers := [S1, S2] } w) =
      WordCountObserver.Notify { subscribers := [S2] }
        (WordCountObserver.Notify { subscribers := [S1, S2] } w).2 := by
    show WordCountObserver.Notify { subscribers := remove [S1, S2] S1 } _ = _
    rw [er]
    rfl
  have c11 : List.count S1 [S1, S2] = 1 := by simp [List.count_cons, hne2]
  have c12 : List.count S2 [S1, S2] = 1 := by simp [List.count_cons, hne]
  have c21 : List.count S1 [S2] = 0 := by simp [List.count_cons, hne2]
  have c22 : List.count S2 [S2] = 1 := by simp
  have a1 : (((WordCountObserver.Notify { subscribers := [S1, S2] } w).2).heap S1).word_count
      = 1 := by
    rw [Notify_word_count, c11, iterate_wrap_one, h1]
    decide
  have a2 : (((WordCountObserver.Notify { subscribers := [S1, S2] } w).2).heap S2).word_count
      = 1 := by
    rw [Notify_word_count, c12, iterate_wrap_one, h2]
    decide
  rw [ea, eb]
  refine ⟨a1, a2, ?_, ?_⟩
  · rw [Notify_word_count, c21]
    exact a1
  · rw [Notify_word_count, c22, iterate_wrap_one, a2]
    decide

theorem scenario_counts_witness :
    (1 : Handle) ≠ 2 ∧ (plainWorld.heap 1).word_count = 0 ∧ (plainWorld.heap 2).word_count = 0 ∧
    ((run [Op.Unsubscribe 1, Op.Notify]
        (run [Op.Subscribe 1, Op.Subscribe 2, Op.Notify]
          (WordCountObserver.empty, plainWorld))).2.heap 2).word_count = 2 :=
  ⟨by decide, rfl, rfl, (scenario_counts plainWorld 1 2 (by decide) rfl rfl).2.2.2⟩

/-! ## The duplicate notice, the frame of Notify, and round trips -/

theorem append_singleton_ne_self {α : Type} (xs : List α) (x : α) : xs ++ [x] ≠ xs := by
  intro e
  have := congrArg List.length e
  simp at this

theorem length_filter_ne (subs : List Handle) (h : Handle) :
    (subs.filter (fun x => decide (x ≠ h))).length + subs.count h = subs.length := by
  induction subs with
  | nil => rfl
  | cons x xs ih =>
    by_cases hx : x = h
    · subst hx
      simp only [List.count_cons_self, List.length_cons]
      have : (x :: xs).filter (fun y => decide (y ≠ x)) = xs.filter (fun y => decide (y ≠ x)) := by
        simp
      rw [this]
      omega
    · have h1 : (x :: xs).filter (fun y => decide (y ≠ h)) =
          x :: xs.filter (fun y => decide (y ≠ h)) := by
        simp [hx]
      have h2 : (x :: xs).count h = xs.count h := by
        simp [List.count_cons, hx]
      rw [h1, h2]
      simp only [List.length_cons]
      omega

/-- C12. `Subscribe` always returns.  When `h` is already in the collection the
collection and every subscriber are left as they are and exactly one chunk, the
notice line, is written to standard output; when `h` is absent it is appended
and nothing is written.  So the notice is written if and only if `h` is already
present. -/
theorem Subscribe_notice {σ : Type} (subs : List Handle) (h : Handle) (w : World σ) :
    WordCountObserver.Subscribe { subscribers := subs } h w =
      (if h ∈ subs then
        ({ subscribers := subs }, { w with cout := w.cout ++ ["You're subscriber already!\n"] })
      else ({ subscribers := subs ++ [h] }, w)) ∧
    ((WordCountObserver.Subscribe { subscribers := subs } h w).2.cout =
        w.cout ++ ["You're subscriber already!\n"] ↔ h ∈ subs) ∧
    ((WordCountObserver.Subscribe { subscribers := subs } h w).2.cout = w.cout ↔ h ∉ subs) ∧
    (WordCountObserver.Subscribe { subscribers := subs } h w).2.heap = w.heap ∧
    (WordCountObserver.Subscribe { subscribers := subs } h w).2.store = w.store ∧
    (WordCountObserver.Subscribe { subscribers := subs } h w).2.calls = w.calls := by
  by_cases hm : h ∈ subs
  · have e := Subscribe_of_mem { subscribers := subs } h w hm
    rw [e]
    refine ⟨by rw [if_pos hm], ⟨fun _ => hm, fun _ => rfl⟩, ⟨fun hc => ?_, fun hn => ?_⟩,
      rfl, rfl, rfl⟩
    · exact absurd hc (append_singleton_ne_self _ _)
    · exact absurd hm hn
  · have e := Subscribe_of_not_mem { subscribers := subs } h w hm
    rw [e]
    refine ⟨by rw [if_neg hm], ⟨fun hc => ?_, fun hp => ?_⟩, ⟨fun _ => hm, fun _ => rfl⟩,
      rfl, rfl, rfl⟩
    · exact absurd hc.symm (append_singleton_ne_self _ _)
    · exact absurd hp hm

/-- C13. `Notify` leaves the collection as it is, whatever it holds; on an
empty collection it calls no `Update`, changes no subscriber (so no counter),
writes nothing to standard output and leaves the callback state alone. -/
theorem Notify_reads_only {σ : Type} (subs : List Handle) (w : World σ) :
    (WordCountObserver.Notify { subscribers := subs } w).1 = { subscribers := subs } ∧
    (WordCountObserver.Notify { subscribers := subs } w).1.subscribers = subs ∧
    (WordCountObserver.Notify { subscribers := [] } w).1 = { subscribers := [] } ∧
    (WordCountObserver.Notify { subscribers := [] } w).2.heap = w.heap ∧
    (∀ h, (((WordCountObserver.Notify { subscribers := [] } w).2).heap h).word_count =
      (w.heap h).word_count) ∧
    (WordCountObserver.Notify { subscribers := [] } w).2.cout = w.cout ∧
    (WordCountObserver.Notify { subscribers := [] } w).2.store = w.store ∧
    (WordCountObserver.Notify { subscribers := [] } w).2.calls = w.calls ++ [Call.Notify] ∧
    updatesOf (WordCountObserver.Notify { subscribers := [] } w).2.calls = updatesOf w.calls := by
  refine ⟨rfl, rfl, rfl, rfl, fun _ => rfl, rfl, rfl, rfl, ?_⟩
  show updatesOf (w.calls ++ [Call.Notify]) = updatesOf w.calls
  induction w.calls with
  | nil => rfl
  | cons c cs ih =>
    cases c with
    | Notify => exact ih
    | Update h =>
      show h :: updatesOf (cs ++ [Call.Notify]) = h :: updatesOf cs
      rw [ih]

/-- C16. On a duplicate-free collection: for `h` not in it, `Subscribe(h)`
followed by `Unsubscribe(h)` gives back exactly the original collection (and the
world is untouched); for `h` in it, `Unsubscribe(h)` followed by `Subscribe(h)`
gives the other handles in their old order followed by `h`, which is the same
set of handles, still duplicate-free, and the next `Notify` calls the `Update`
of `h` last. -/
theorem Subscribe_Unsubscribe_round_trip {σ : Type} (subs : List Handle) (h : Handle)
    (w : World σ) (hnd : subs.Nodup) :
    (h ∉ subs →
      WordCountObserver.Unsubscribe
          (WordCountObserver.Subscribe { subscribers := subs } h w).1 h
          (WordCountObserver.Subscribe { subscribers := subs } h w).2 =
        ({ subscribers := subs }, w)) ∧
    (h ∈ subs →
      WordCountObserver.Subscribe
          (WordCountObserver.Unsubscribe { subscribers := subs } h w).1 h
          (WordCountObserver.Unsubscribe { subscribers := subs } h w).2 =
        ({ subscribers := subs.filter (fun x => decide (x ≠ h)) ++ [h] }, w) ∧
      (∀ x, x ∈ subs.filter (fun x => decide (x ≠ h)) ++ [h] ↔ x ∈ subs) ∧
      (subs.filter (fun x => decide (x ≠ h)) ++ [h]).Nodup ∧
      (subs.filter (fun x => decide (x ≠ h)) ++ [h]).length = subs.length ∧
      (subs.filter (fun x => decide (x ≠ h)) ++ [h]).getLast? = some h ∧
      (WordCountObserver.Notify
          { subscribers := subs.filter (fun x => decide (x ≠ h)) ++ [h] } w).2.calls =
        w.calls ++ Call.Notify ::
          ((subs.filter (fun x => decide (x ≠ h))).map Call.Update ++ [Call.Update h])) := by
  have hnot : h ∉ subs.filter (fun x => decide (x ≠ h)) := by simp
  constructor
  · intro hn
    rw [Subscribe_of_not_mem { subscribers := subs } h w hn]
    unfold WordCountObserver.Unsubscribe
    rw [remove_eq_filter]
    have hf : (subs ++ [h]).filter (fun x => decide (x ≠ h)) = subs := by
      rw [List.filter_append]
      have h1 : subs.filter (fun x => decide (x ≠ h)) = subs := by
        rw [List.filter_eq_self]
        intro a ha
        have : a ≠ h := fun e => hn (e ▸ ha)
        simpa using this
      rw [h1]
      simp
    show ((({ subscribers := (subs ++ [h]).filter (fun x => decide (x ≠ h)) } :
      WordCountObserver), w) : WordCountObserver × World σ) = _
    rw [hf]
  · intro hm
    have e1 : WordCountObserver.Unsubscribe { subscribers := subs } h w =
        ({ subscribers := subs.filter (fun x => decide (x ≠ h)) }, w) := by
      unfold WordCountObserver.Unsubscribe
      rw [remove_eq_filter]
    rw [e1]
    refine ⟨Subscribe_of_not_mem _ h w hnot, fun x => ?_, ?_, ?_, by simp, ?_⟩
    · rw [List.mem_append, List.mem_filter, List.mem_singleton]
      constructor
      · rintro (⟨hx, _⟩ | hx)
        · exact hx
        · exact hx ▸ hm
      · intro hx
        by_cases hxh : x = h
        · exact Or.inr hxh
        · exact Or.inl ⟨hx, by simpa using hxh⟩
    · rw [List.nodup_append]
      refine ⟨hnd.filter _, List.nodup_singleton h, ?_⟩
      intro a ha hb
      rw [List.mem_singleton] at hb
      exact hnot (hb ▸ ha)
    · have hc : subs.count h = 1 := List.count_eq_one_of_mem hnd hm
      have hl := length_filter_ne subs h
      rw [List.length_append, List.length_singleton]
      omega
    · rw [Notify_calls]
      simp

theorem Subscribe_Unsubscribe_round_trip_witness :
    [3, 5, 8].Nodup ∧ (5 : Handle) ∈ [3, 5, 8] ∧ (7 : Handle) ∉ [3, 5, 8] ∧
    WordCountObserver.Unsubscribe
        (WordCountObserver.Subscribe { subscribers := [3, 5, 8] } 7 plainWorld).1 7
        (WordCountObserver.Subscribe { subscribers := [3, 5, 8] } 7 plainWorld).2 =
      ({ subscribers := [3, 5, 8] }, plainWorld) ∧
    (WordCountObserver.Subscribe
        (WordCountObserver.Unsubscribe { subscribers := [3, 5, 8] } 5 plainWorld).1 5
        (WordCountObserver.Unsubscribe { subscribers := [3, 5, 8] } 5 plainWorld).2).1 =
      { subscribers := [3, 8, 5] } :=
  ⟨by decide, by decide, by decide,
    (Subscribe_Unsubscribe_round_trip [3, 5, 8] 7 plainWorld (by decide)).1 (by decide),
    congrArg Prod.fst
      ((Subscribe_Unsubscribe_round_trip [3, 5, 8] 5 plainWorld (by decide)).2 (by decide)).1⟩

/-! ## The driver -/

theorem main_eq (sub1 sub2 sub : Handle) (stdin : List Nat) :
    main sub1 sub2 sub stdin = mainFromRead sub stdin (mainBeforeRead sub1 sub2 sub) := rfl

theorem foldl_print {σ : Type} (msgs : List String) (s : WordCountObserver × World σ) :
    msgs.foldl print s = (s.1, { s.2 with cout := s.2.cout ++ msgs }) := by
  induction msgs generalizing s with
  | nil => simp
  | cons m ms ih =>
    rw [List.foldl_cons, ih]
    simp [print, List.append_assoc]

theorem Notify_single {σ : Type} (sub : Handle) (w : World σ) :
    WordCountObserver.Notify { subscribers := [sub] } w =
      ({ subscribers := [sub] },
        callUpdate { w with calls := w.calls ++ [Call.Notify] } sub) := rfl

theorem iterate_Notify_single {σ : Type} (sub : Handle) (k : Nat) (w : World σ) :
    ((fun t : WordCountObserver × World σ => t.1.Notify t.2)^[k]
        ({ subscribers := [sub] }, w)).1 = { subscribers := [sub] } ∧
    ((fun t : WordCountObserver × World σ => t.1.Notify t.2)^[k]
        ({ subscribers := [sub] }, w)).2.heap sub =
      (updateTimes k (w.heap sub, w.cout, w.store)).1 ∧
    ((fun t : WordCountObserver × World σ => t.1.Notify t.2)^[k]
        ({ subscribers := [sub] }, w)).2.cout =
      (updateTimes k (w.heap sub, w.cout, w.store)).2.1 ∧
    ((fun t : WordCountObserver × World σ => t.1.Notify t.2)^[k]
        ({ subscribers := [sub] }, w)).2.store =
      (updateTimes k (w.heap sub, w.cout, w.store)).2.2 := by
  induction k with
  | zero => exact ⟨rfl, rfl, rfl, rfl⟩
  | succ k ih =>
    obtain ⟨i1, i2, i3, i4⟩ := ih
    rw [Function.iterate_succ_apply']
    generalize (fun t : WordCountObserver × World σ => t.1.Notify t.2)^[k]
      ({ subscribers := [sub] }, w) = T at i1 i2 i3 i4
    show (T.1.Notify T.2).1 = _ ∧ (T.1.Notify T.2).2.heap sub = _ ∧
      (T.1.Notify T.2).2.cout = _ ∧ (T.1.Notify T.2).2.store = _
    rw [i1, Notify_single, updateTimes_succ, ← i2, ← i3, ← i4]
    refine ⟨rfl, ?_, rfl, rfl⟩
    simp [callUpdate]

theorem mainBeforeRead_state (sub1 sub2 sub : Handle)
    (h12 : sub1 ≠ sub2) (h1 : sub1 ≠ sub) (h2 : sub2 ≠ sub) :
    (mainBeforeRead sub1 sub2 sub).1 = { subscribers := [sub] } ∧
    (mainBeforeRead sub1 sub2 sub).2.heap sub =
      { callback := some pushResult, word_count := 0, name := "sub" } ∧
    (mainBeforeRead sub1 sub2 sub).2.store = [] ∧
    (mainBeforeRead sub1 sub2 sub).2.cout =
      ["You're subscriber already!\n", "sub1: get update [word_count = 1]\n",
        "sub2: get update [word_count = 1]\n", "sub2: get update [word_count = 2]\n",
        "\n", "Enter string: "] := by
  have h21 : sub2 ≠ sub1 := fun e => h12 e.symm
  have h1s : sub ≠ sub1 := fun e => h1 e.symm
  have h2s : sub ≠ sub2 := fun e => h2 e.symm
  have w1 : wrapInt 1 = 1 := by decide
  have w2 : wrapInt 2 = 2 := by decide
  have m1 : formatMessage "sub1" 1 = "sub1: get update [word_count = 1]\n" := by decide
  have m2 : formatMessage "sub2" 1 = "sub2: get update [word_count = 1]\n" := by decide
  have m3 : formatMessage "sub2" 2 = "sub2: get update [word_count = 2]\n" := by decide
  simp [mainBeforeRead, WordCountObserver.Subscribe, WordCountObserver.Unsubscribe,
    WordCountObserver.Notify, WordCountObserver.empty, find, remove, callUpdate, print,
    mainHeap, WordCountSubscriber.Update, WordCountSubscriber.ctor,
    WordCountSubscriber.ctorCallback, h12, h1, h2, h21, h1s, h2s, w1, w2, m1, m2, m3]

theorem iterate_wrap_eq (n : Nat) (hn : n ≤ 2147483647) :
    (fun x => wrapInt (x + 1))^[n] 0 = (n : Int) := by
  induction n with
  | zero => rfl
  | succ k ih =>
    rw [Function.iterate_succ_apply', ih (by omega)]
    show wrapInt ((k : Int) + 1) = ((k + 1 : Nat) : Int)
    rw [wrapInt_of_range (by omega) (by omega)]
    push_cast
    rfl

theorem formatMessage_sub (n : Nat) :
    formatMessage "sub" (n : Int) =
      "sub: get update [word_count = " ++ toString n ++ "]\n" := by
  have e : "sub" ++ ": get update [word_count = " = "sub: get update [word_count = " := by
    decide
  unfold formatMessage to_string
  rw [e]
  rfl

theorem sink_messages (k : Nat) (hk : k ≤ 2147483647) :
    (List.range k).map (fun i => formatMessage "sub" ((fun x => wrapInt (x + 1))^[i + 1] 0)) =
      updateMessages k := by
  unfold updateMessages
  apply List.map_congr_left
  intro i hi
  have hi2 : i + 1 ≤ 2147483647 := by
    have := List.mem_range.mp hi
    omega
  rw [iterate_wrap_eq (i + 1) hi2, formatMessage_sub]

theorem wordStarts_le_length (line : List Nat) : wordStarts line ≤ line.length := by
  unfold wordStarts
  have := List.length_filter_le (isWordStart line) (List.range line.length)
  simpa using this

theorem bufferText_length_le (stdin : List Nat) : (bufferText stdin).length ≤ 99 := by
  unfold bufferText getline
  have h1 := List.length_take_le (strlen (List.take (100 - 1)
    (List.takeWhile (fun ch => ch != 10) stdin)))
    (List.take (100 - 1) (List.takeWhile (fun ch => ch != 10) stdin))
  have h2 := List.length_take_le (100 - 1) (List.takeWhile (fun ch => ch != 10) stdin)
  have h3 : (List.take (strlen (List.take (100 - 1)
      (List.takeWhile (fun ch => ch != 10) stdin)))
      (List.take (100 - 1) (List.takeWhile (fun ch => ch != 10) stdin))).length ≤
      (List.take (100 - 1) (List.takeWhile (fun ch => ch != 10) stdin)).length := by
    rw [List.length_take]
    exact Nat.min_le_right _ _
  omega

theorem mainFromRead_state (sub : Handle) (stdin : List Nat)
    (s9 : WordCountObserver × World (List String))
    (h1 : s9.1 = { subscribers := [sub] })
    (h2 : s9.2.heap sub = { callback := some pushResult, word_count := 0, name := "sub" })
    (h3 : s9.2.store = []) :
    (mainFromRead sub stdin s9).2.cout =
      s9.2.cout ++ ["Processing...\n", "\n", "All output:\n"] ++
        updateMessages (wordStarts (bufferText stdin)) ∧
    (mainFromRead sub stdin s9).2.store = updateMessages (wordStarts (bufferText stdin)) := by
  have hk : wordStarts (bufferText stdin) ≤ 2147483647 := by
    have a := wordStarts_le_length (bufferText stdin)
    have b := bufferText_length_le stdin
    omega
  have e10 : print s9 "Processing...\n" =
      ({ subscribers := [sub] }, { s9.2 with cout := s9.2.cout ++ ["Processing...\n"] }) := by
    unfold print
    rw [h1]
  have e11 : scanBuffer (getline stdin 100) (print s9 "Processing...\n") =
      (fun t : WordCountObserver × World (List String) => t.1.Notify t.2)^[
        wordStarts (bufferText stdin)] (print s9 "Processing...\n") := by
    unfold scanBuffer bufferText
    rw [scanLoop_spec]
  obtain ⟨_, _, i3, i4⟩ := iterate_Notify_single sub (wordStarts (bufferText stdin))
    { s9.2 with cout := s9.2.cout ++ ["Processing...\n"] }
  have hu := updateTimes_sink "sub" pushResult 0 (s9.2.cout ++ ["Processing...\n"])
    ([] : List String) (wordStarts (bufferText stdin))
  rw [foldl_pushResult, sink_messages _ hk, List.nil_append] at hu
  have hh : ({ s9.2 with cout := s9.2.cout ++ ["Processing...\n"] } : World (List String)).heap sub
      = { callback := some pushResult, word_count := 0, name := "sub" } := h2
  have hs : ({ s9.2 with cout := s9.2.cout ++ ["Processing...\n"] } : World (List String)).store
      = [] := h3
  rw [hh, hs] at i3 i4
  simp only [hu] at i3 i4
  rw [← e10, ← e11] at i3 i4
  have hc : (mainFromRead sub stdin s9).2.cout =
      (scanBuffer (getline stdin 100) (print s9 "Processing...\n")).2.cout ++
        ["\n", "All output:\n"] ++
        (scanBuffer (getline stdin 100) (print s9 "Processing...\n")).2.store := by
    unfold mainFromRead
    simp only [foldl_print]
    simp [print, WordCountObserver.Unsubscribe]
  have hst : (mainFromRead sub stdin s9).2.store =
      (scanBuffer (getline stdin 100) (print s9 "Processing...\n")).2.store := by
    unfold mainFromRead
    simp only [foldl_print]
    simp [print, WordCountObserver.Unsubscribe]
  rw [hc, hst, i3, i4]
  simp

theorem foldl_append_join (l : List String) (acc : String) :
    l.foldl (fun r s => r ++ s) acc = acc ++ String.join l := by
  induction l generalizing acc with
  | nil =>
    show acc = acc ++ ""
    rw [String.append_empty]
  | cons x xs ih =>
    show xs.foldl (fun r s => r ++ s) (acc ++ x) =
      acc ++ xs.foldl (fun r s => r ++ s) ("" ++ x)
    rw [ih (acc ++ x), ih ("" ++ x), String.empty_append, String.append_assoc]

theorem join_cons (x : String) (xs : List String) :
    String.join (x :: xs) = x ++ String.join xs := by
  show xs.foldl (fun r s => r ++ s) ("" ++ x) = _
  rw [foldl_append_join, String.empty_append]

theorem string_eq_empty_of_length (s : String) (h : s.length = 0) : s = "" := by
  cases s with
  | mk d =>
    have hd : d = [] := List.length_eq_zero.mp h
    subst hd
    rfl

theorem bufferText_eq_inputLine (stdin : List Nat) (hlen : (inputLine stdin).length ≤ 99)
    (hnul : 0 ∉ inputLine stdin) : bufferText stdin = inputLine stdin := by
  have hg : getline stdin 100 = inputLine stdin := by
    unfold getline inputLine at *
    exact List.take_of_length_le hlen
  have hs : strlen (inputLine stdin) = (inputLine stdin).length := by
    unfold strlen
    have : (inputLine stdin).takeWhile (fun ch => ch != 0) = inputLine stdin := by
      rw [List.takeWhile_eq_self_iff]
      intro x hx
      have : x ≠ 0 := fun e => hnul (e ▸ hx)
      simpa using this
    rw [this]
  unfold bufferText
  rw [hg, hs, List.take_length]

theorem mem_inputLine_of_mem_bufferText {stdin : List Nat} {ch : Nat}
    (h : ch ∈ bufferText stdin) : ch ∈ inputLine stdin := by
  unfold bufferText getline at h
  exact List.mem_of_mem_take (List.mem_of_mem_take h)

theorem wordStarts_eq_zero (line : List Nat) (h : ∀ ch ∈ line, isalpha ch = false) :
    wordStarts line = 0 := by
  unfold wordStarts
  rw [List.length_eq_zero, List.filter_eq_nil_iff]
  intro i hi
  have hi2 : i < line.length := List.mem_range.mp hi
  have hm : line.getD i 0 ∈ line := by
    rw [List.getD_eq_getElem line 0 hi2]
    exact List.getElem_mem hi2
  unfold isWordStart
  rw [h _ hm]
  simp

theorem main_state (sub1 sub2 sub : Handle) (stdin : List Nat)
    (h12 : sub1 ≠ sub2) (h1 : sub1 ≠ sub) (h2 : sub2 ≠ sub) :
    (main sub1 sub2 sub stdin).2.cout =
      (mainBeforeRead sub1 sub2 sub).2.cout ++ ["Processing...\n", "\n", "All output:\n"] ++
        updateMessages (wordStarts (bufferText stdin)) ∧
    (main sub1 sub2 sub stdin).2.store = updateMessages (wordStarts (bufferText stdin)) := by
  obtain ⟨a, b, c, _⟩ := mainBeforeRead_state sub1 sub2 sub h12 h1 h2
  rw [main_eq]
  exact mainFromRead_state sub stdin _ a b c

/-- C14, as stated, fails on the input `hi`: the one update message of the scan
is handed to the callback, so nothing at all is printed between
`"Processing...\n"` and `"\nAll output:\n"`; the output is not the layout of
the specification with an update line in between, whatever that line is. -/
theorem output_after_read_counterexample :
    wordStarts (inputLine ("hi".toList.map Char.toNat)) = 1 ∧
    outputAfterRead 1 2 3 ("hi".toList.map Char.toNat) =
      "Processing...\n\nAll output:\nsub: get update [word_count = 1]\n" ∧
    (main 1 2 3 ("hi".toList.map Char.toNat)).2.store =
      ["sub: get update [word_count = 1]\n"] ∧
    outputAfterRead 1 2 3 ("hi".toList.map Char.toNat) ≠
      specOutputAfterRead ["sub: get update [word_count = 1]\n"]
        (main 1 2 3 ("hi".toList.map Char.toNat)).2.store ∧
    ∀ line : String, line ≠ "" →
      outputAfterRead 1 2 3 ("hi".toList.map Char.toNat) ≠
        specOutputAfterRead [line] (main 1 2 3 ("hi".toList.map Char.toNat)).2.store := by
  have ho : outputAfterRead 1 2 3 ("hi".toList.map Char.toNat) =
      "Processing...\n\nAll output:\nsub: get update [word_count = 1]\n" := by decide
  have hs : (main 1 2 3 ("hi".toList.map Char.toNat)).2.store =
      ["sub: get update [word_count = 1]\n"] := by decide
  refine ⟨by decide, ho, hs, by decide, fun line hl e => hl ?_⟩
  rw [ho, hs] at e
  have hlen := congrArg String.length e
  unfold specOutputAfterRead at hlen
  rw [join_cons, join_cons] at hlen
  simp only [String.length_append] at hlen
  have l1 : ("Processing...\n\nAll output:\nsub: get update [word_count = 1]\n").length = 60 := by
    decide
  have l2 : ("Processing...\n").length = 14 := by decide
  have l3 : ("\nAll output:\n").length = 13 := by decide
  have l4 : ("sub: get update [word_count = 1]\n").length = 33 := by decide
  have l5 : (String.join []).length = 0 := by decide
  rw [l1, l2, l3, l4, l5] at hlen
  exact string_eq_empty_of_length line (by omega)

/-- C14, amended. With the three subscribers at distinct addresses, for every
standard input: after reading the line the program prints `"Processing...\n"`,
then directly `"\n"` and `"All output:\n"` with no update line in between, and
then the buffered messages collected by the callback, which are the messages
numbered 1 to the number of word starts of the text held in the buffer. -/
theorem output_after_read (sub1 sub2 sub : Handle) (stdin : List Nat)
    (h12 : sub1 ≠ sub2) (h1 : sub1 ≠ sub) (h2 : sub2 ≠ sub) :
    (main sub1 sub2 sub stdin).2.cout =
      (mainBeforeRead sub1 sub2 sub).2.cout ++ ["Processing...\n", "\n", "All output:\n"] ++
        (main sub1 sub2 sub stdin).2.store ∧
    (main sub1 sub2 sub stdin).2.store = updateMessages (wordStarts (bufferText stdin)) ∧
    outputAfterRead sub1 sub2 sub stdin =
      specOutputAfterRead [] (main sub1 sub2 sub stdin).2.store ∧
    (main sub1 sub2 sub stdin).2.cout =
      ["You're subscriber already!\n", "sub1: get update [word_count = 1]\n",
        "sub2: get update [word_count = 1]\n", "sub2: get update [word_count = 2]\n",
        "\n", "Enter string: ", "Processing...\n", "\n", "All output:\n"] ++
        updateMessages (wordStarts (bufferText stdin)) := by
  obtain ⟨hc, hs⟩ := main_state sub1 sub2 sub stdin h12 h1 h2
  obtain ⟨_, _, _, hpre⟩ := mainBeforeRead_state sub1 sub2 sub h12 h1 h2
  refine ⟨by rw [hc, hs], hs, ?_, ?_⟩
  · unfold outputAfterRead specOutputAfterRead
    rw [hc, hs, List.append_assoc, List.drop_left, List.cons_append, List.cons_append,
      List.cons_append, List.nil_append, join_cons, join_cons, join_cons]
    have e0 : String.join [] = "" := rfl
    have e1 : "\n" ++ ("All output:\n" ++ String.join (updateMessages (wordStarts
        (bufferText stdin)))) = "\nAll output:\n" ++ String.join (updateMessages (wordStarts
        (bufferText stdin))) := by
      rw [← String.append_assoc]
      rfl
    rw [e0, e1, String.append_empty, String.append_assoc]
  · rw [hc, hpre]
    rfl

theorem output_after_read_witness :
    (1 : Handle) ≠ 2 ∧ (1 : Handle) ≠ 3 ∧ (2 : Handle) ≠ 3 ∧
    (main 1 2 3 ("hi there you".toList.map Char.toNat)).2.cout =
      ["You're subscriber already!\n", "sub1: get update [word_count = 1]\n",
        "sub2: get update [word_count = 1]\n", "sub2: get update [word_count = 2]\n",
        "\n", "Enter string: ", "Processing...\n", "\n", "All output:\n"] ++
        updateMessages (wordStarts (bufferText ("hi there you".toList.map Char.toNat))) :=
  ⟨by decide, by decide, by decide,
    (output_after_read 1 2 3 ("hi there you".toList.map Char.toNat)
      (by decide) (by decide) (by decide)).2.2.2⟩

/-- C15, as stated, fails on a line of 99 blanks followed by `a`: the line has
one word start, but `getline` stores only its first 99 characters and
`resultStorage` ends up empty. -/
theorem resultStorage_counterexample :
    wordStarts (inputLine (List.replicate 99 32 ++ [97])) = 1 ∧
    (main 1 2 3 (List.replicate 99 32 ++ [97])).2.store = [] ∧
    ¬ (main 1 2 3 (List.replicate 99 32 ++ [97])).2.store.length =
      wordStarts (inputLine (List.replicate 99 32 ++ [97])) := by
  decide

/-- C15, amended. With the three subscribers at distinct addresses, for every
standard input, with `k` the number of word starts of the text held in the
buffer (the whole input line when it has at most 99 characters and no NUL):
`resultStorage` ends up holding exactly `k` messages, the `i`-th being
`"sub: get update [word_count = i]\n"`; and an input line without alphabetic
characters yields an empty storage. -/
theorem resultStorage_messages (sub1 sub2 sub : Handle) (stdin : List Nat)
    (h12 : sub1 ≠ sub2) (h1 : sub1 ≠ sub) (h2 : sub2 ≠ sub) :
    (main sub1 sub2 sub stdin).2.store.length = wordStarts (bufferText stdin) ∧
    (∀ i, i < wordStarts (bufferText stdin) →
      (main sub1 sub2 sub stdin).2.store[i]? =
        some ("sub: get update [word_count = " ++ toString (i + 1) ++ "]\n")) ∧
    ((inputLine stdin).length ≤ 99 → 0 ∉ inputLine stdin →
      bufferText stdin = inputLine stdin ∧
      (main sub1 sub2 sub stdin).2.store.length = wordStarts (inputLine stdin)) ∧
    ((∀ ch ∈ inputLine stdin, isalpha ch = false) →
      (main sub1 sub2 sub stdin).2.store = []) := by
  obtain ⟨_, hs⟩ := main_state sub1 sub2 sub stdin h12 h1 h2
  have hlen : (main sub1 sub2 sub stdin).2.store.length = wordStarts (bufferText stdin) := by
    rw [hs]
    simp [updateMessages]
  refine ⟨hlen, fun i hi => ?_, fun ha hb => ?_, fun hna => ?_⟩
  · rw [hs]
    unfold updateMessages
    rw [List.getElem?_map, List.getElem?_range hi]
    rfl
  · have e := bufferText_eq_inputLine stdin ha hb
    exact ⟨e, by rw [hlen, e]⟩
  · have h0 : wordStarts (bufferText stdin) = 0 :=
      wordStarts_eq_zero _ (fun ch hch => hna ch (mem_inputLine_of_mem_bufferText hch))
    rw [hs, h0]
    rfl

theorem resultStorage_messages_witness :
    (1 : Handle) ≠ 2 ∧ (1 : Handle) ≠ 3 ∧ (2 : Handle) ≠ 3 ∧
    (inputLine ("hi there you".toList.map Char.toNat)).length ≤ 99 ∧
    0 ∉ inputLine ("hi there you".toList.map Char.toNat) ∧
    wordStarts (inputLine ("hi there you".toList.map Char.toNat)) = 3 ∧
    (main 1 2 3 ("hi there you".toList.map Char.toNat)).2.store.length =
      wordStarts (inputLine ("hi there you".toList.map Char.toNat)) :=
  ⟨by decide, by decide, by decide, by decide, by decide, by decide,
    ((resultStorage_messages 1 2 3 ("hi there you".toList.map Char.toNat)
      (by decide) (by decide) (by decide)).2.2.1 (by decide) (by decide)).2⟩

end SPZ6
